import Mathlib

/-!
Shallow embedding of the paperio server core (packages/common geometry,
packages/common GameState, packages/server SpatialHash and GameRoom) and
proofs about it.

Numbers are embedded in an arbitrary linear ordered field `K` (instantiated
at `ℚ` for computation and at `ℝ` where the source uses transcendental
functions), mirroring the source's double arithmetic exactly except for
floating-point rounding; `NaN`/`Infinity` do not arise in exact field
arithmetic, so the source's `isNaN`/`isFinite` guards are constantly
false/true here.  JavaScript `%` on integers is truncated remainder, which
is `Int.tmod`.
-/

set_option linter.unusedSectionVars false

namespace Paperio

/-- A 2-D point, `Point` from packages/common/src/types.ts. -/
structure Point (K : Type) where
  x : K
  y : K
deriving DecidableEq, Repr

/-- Result of `findBoundaryIntersection`: intersection point plus the index
of the polygon edge hit (`BoundaryIntersection` in types.ts). -/
structure BoundaryIntersection (K : Type) where
  point : Point K
  edgeIndex : ℤ
deriving DecidableEq, Repr

variable {K : Type} [LinearOrderedField K]

/-- `isPointInPolygon` from packages/common geometry: even-odd ray casting,
edge `i` paired with the previous vertex `j` (`j = n-1` for `i = 0`). -/
def isPointInPolygon (point : Point K) (polygon : List (Point K)) : Bool :=
  (List.range polygon.length).foldl (fun inside i =>
    let vi := polygon.getD i ⟨0, 0⟩
    let vj := polygon.getD ((i + polygon.length - 1) % polygon.length) ⟨0, 0⟩
    let intersect :=
      (decide (vi.y > point.y) != decide (vj.y > point.y)) &&
        decide (point.x < (vj.x - vi.x) * (point.y - vi.y) / (vj.y - vi.y) + vi.x)
    if intersect then !inside else inside) false

/-- `getSegmentIntersection` from packages/common geometry: parametric
segment-segment intersection, `none` when the denominator vanishes. -/
def getSegmentIntersection (A B C D : Point K) : Option (Point K) :=
  let denom := (D.y - C.y) * (B.x - A.x) - (D.x - C.x) * (B.y - A.y)
  if denom = 0 then none
  else
    let ua := ((D.x - C.x) * (A.y - C.y) - (D.y - C.y) * (A.x - C.x)) / denom
    let ub := ((B.x - A.x) * (A.y - C.y) - (B.y - A.y) * (A.x - C.x)) / denom
    if ua ≥ 0 ∧ ua ≤ 1 ∧ ub ≥ 0 ∧ ub ≤ 1 then
      some ⟨A.x + ua * (B.x - A.x), A.y + ua * (B.y - A.y)⟩
    else none

/-- `findBoundaryIntersection`: first polygon edge (in index order) whose
segment meets `p1 → p2`. -/
def findBoundaryIntersection (p1 p2 : Point K) (polygon : List (Point K)) :
    Option (BoundaryIntersection K) :=
  (List.range polygon.length).findSome? (fun i =>
    let edgeStart := polygon.getD i ⟨0, 0⟩
    let edgeEnd := polygon.getD ((i + 1) % polygon.length) ⟨0, 0⟩
    (getSegmentIntersection p1 p2 edgeStart edgeEnd).map (fun pt => ⟨pt, (i : ℤ)⟩))

/-- Body of the `while` loop of `extractBoundaryArc`.  The source walks the
cyclic index `i` until it reaches `stop`; for in-range edge indices this
takes fewer than `polygon.length` steps, which we use as fuel (the fuel
never runs out on the states the program reaches). -/
def extractArcGo (polygon : List (Point K)) (stop : ℕ) : ℕ → ℕ → List (Point K)
  | 0, _ => []
  | fuel + 1, i =>
    if i = stop then []
    else polygon.getD i ⟨0, 0⟩ :: extractArcGo polygon stop fuel ((i + 1) % polygon.length)

/-- `extractBoundaryArc`: vertices strictly after edge `startEdgeIndex` up to
and including the start vertex of edge `endEdgeIndex + 1`, walking forward. -/
def extractBoundaryArc (polygon : List (Point K)) (startEdgeIndex endEdgeIndex : ℤ) :
    List (Point K) :=
  extractArcGo polygon (((endEdgeIndex + 1).tmod polygon.length).toNat)
    polygon.length (((startEdgeIndex + 1).tmod polygon.length).toNat)

/-- `getSignedPolygonArea`: shoelace sum over edges `i → (i+1) % n`, halved.
Positive means clockwise in the source's screen coordinates. -/
def getSignedPolygonArea (polygon : List (Point K)) : K :=
  ((List.range polygon.length).foldl (fun area i =>
    let vi := polygon.getD i ⟨0, 0⟩
    let vj := polygon.getD ((i + 1) % polygon.length) ⟨0, 0⟩
    area + vi.x * vj.y - vj.x * vi.y) 0) / 2

/-- `getPolygonArea`: absolute shoelace area. -/
def getPolygonArea (polygon : List (Point K)) : K :=
  |getSignedPolygonArea polygon|

/-- `ensureClockwise`: reverse the vertex order when the signed area is
negative (counter-clockwise). -/
def ensureClockwise (polygon : List (Point K)) : List (Point K) :=
  if getSignedPolygonArea polygon < 0 then polygon.reverse else polygon

/-- `computeCapture`: the two-candidate capture construction.  Same-edge
case compares candidate areas directly; different-edge case compares their
absolute values (the source re-applies `Math.abs` to already-absolute
areas; we mirror it). -/
def computeCapture (territory trail : List (Point K)) (exitPoint : Point K)
    (exitEdgeIndex : ℤ) (entryPoint : Point K) (entryEdgeIndex : ℤ) : List (Point K) :=
  if exitEdgeIndex = entryEdgeIndex then
    let candidateA := exitPoint :: trail ++ [entryPoint]
    let arcB := (List.range territory.length).map (fun k =>
      territory.getD ((((exitEdgeIndex + 1).tmod territory.length).toNat + k) %
        territory.length) ⟨0, 0⟩)
    let candidateB := exitPoint :: trail ++ entryPoint :: arcB
    if getPolygonArea candidateA > getPolygonArea candidateB then candidateA else candidateB
  else
    let arcA := extractBoundaryArc territory exitEdgeIndex entryEdgeIndex
    let arcB := extractBoundaryArc territory entryEdgeIndex exitEdgeIndex
    let candidateA := exitPoint :: trail ++ entryPoint :: arcA.reverse
    let candidateB := exitPoint :: trail ++ entryPoint :: arcB
    if |getPolygonArea candidateA| > |getPolygonArea candidateB| then candidateA
    else candidateB

/-- Body of the `simplifyPolygon` loop: keep a vertex only when its squared
distance from the last kept vertex exceeds `tolerance²`. -/
def simplifyGo (tolerance : K) : Point K → List (Point K) → List (Point K)
  | _, [] => []
  | last, curr :: rest =>
    let dx := curr.x - last.x
    let dy := curr.y - last.y
    if dx * dx + dy * dy > tolerance * tolerance then curr :: simplifyGo tolerance curr rest
    else simplifyGo tolerance last rest

/-- `simplifyPolygon` (default tolerance 2, as in the source). -/
def simplifyPolygon (polygon : List (Point K)) (tolerance : K := 2) : List (Point K) :=
  if polygon.length < 3 then polygon
  else
    match polygon with
    | [] => polygon
    | p :: ps => p :: simplifyGo tolerance p ps

/-- `segmentsIntersect`: Boolean wrapper around `getSegmentIntersection`. -/
def segmentsIntersect (a1 a2 b1 b2 : Point K) : Bool :=
  (getSegmentIntersection a1 a2 b1 b2).isSome

/-! Constants from packages/common/src/constants.ts. -/

/-- `WORLD_WIDTH = 5000`. -/
def WORLD_WIDTH : K := 5000

/-- `WORLD_HEIGHT = 5000`. -/
def WORLD_HEIGHT : K := 5000

/-- `PLAYER_SPEED = 500` units per second. -/
def PLAYER_SPEED : K := 500

/-- `PLAYER_TURN_SPEED = 12.0`, the steering lerp factor. -/
def PLAYER_TURN_SPEED : K := 12

/-- `TRAIL_POINT_DISTANCE = 10`, minimal spacing of trail points. -/
def TRAIL_POINT_DISTANCE : K := 10

/-- `STARTING_TERRITORY_SIZE = 300`. -/
def STARTING_TERRITORY_SIZE : K := 300

/-- The IEEE-754 binary64 value of `Math.PI`, exactly
`884279719003555 / 2^48` (the closest double to π). -/
def mathPI : K := 884279719003555 / 281474976710656

variable [FloorRing K]

/-! SpatialHash from packages/server/src/SpatialHash.ts.  Buckets are kept
as an association list in key-insertion order, and items inside a bucket in
insertion order, matching JavaScript `Map` iteration. -/

/-- An object stored in the spatial hash by `checkCaptureAndCollisions`:
`{type, playerId, p1, p2, index}`.  `index` is the trail array index of
`p1`; territory items leave it undefined in the source and never read it,
here they store `-1`. -/
structure SegItem (K : Type) where
  type : String
  playerId : String
  p1 : Point K
  p2 : Point K
  index : ℤ
deriving DecidableEq, Repr

/-- The spatial hash state: cell size plus ordered buckets. -/
structure SpatialHash (K : Type) where
  cellSize : K
  buckets : List ((ℤ × ℤ) × List (SegItem K))
deriving Repr

/-- `getKey`: integer cell coordinates `(⌊x/cellSize⌋, ⌊y/cellSize⌋)`. -/
def hashGetKey (cellSize : K) (x y : K) : ℤ × ℤ :=
  (⌊x / cellSize⌋, ⌊y / cellSize⌋)

/-- Append `obj` to the bucket of `key`, creating the bucket at the end of
the bucket list when absent (JavaScript `Map.set` on a fresh key). -/
def bucketsInsert : List ((ℤ × ℤ) × List (SegItem K)) → ℤ × ℤ → SegItem K →
    List ((ℤ × ℤ) × List (SegItem K))
  | [], key, obj => [(key, [obj])]
  | (k, items) :: rest, key, obj =>
    if k = key then (k, items ++ [obj]) :: rest
    else (k, items) :: bucketsInsert rest key obj

/-- `SpatialHash.insert`. -/
def hashInsert (h : SpatialHash K) (obj : SegItem K) (x y : K) : SpatialHash K :=
  { h with buckets := bucketsInsert h.buckets (hashGetKey h.cellSize x y) obj }

/-- `SpatialHash.insertSegment`: index the object at both endpoints and at
the midpoint of the segment. -/
def insertSegment (h : SpatialHash K) (obj : SegItem K) (p1 p2 : Point K) : SpatialHash K :=
  hashInsert (hashInsert (hashInsert h obj p1.x p1.y) obj p2.x p2.y)
    obj ((p1.x + p2.x) / 2) ((p1.y + p2.y) / 2)

/-- `SpatialHash.query`: concatenate the buckets of the 3×3 cell
neighborhood around `(x, y)`, x offset in the outer loop. -/
def hashQuery (h : SpatialHash K) (x y : K) : List (SegItem K) :=
  let cx := ⌊x / h.cellSize⌋
  let cy := ⌊y / h.cellSize⌋
  (([-1, 0, 1] : List ℤ)).foldl (fun results i =>
    (([-1, 0, 1] : List ℤ)).foldl (fun results j =>
      results ++ ((h.buckets.lookup (cx + i, cy + j)).getD [])) results) []

/-! Player and GameState from packages/common (types.ts / GameState.ts). -/

/-- The mutable `Player` record.  `territoryChanged`, `prevX`, `prevY` are
expando properties in the source (`(player as any)`), starting undefined:
modelled as `false` / `none`. -/
structure Player (K : Type) where
  id : String
  x : K
  y : K
  angle : K
  targetAngle : K
  speed : K
  color : String
  territory : List (Point K)
  trail : List (Point K)
  isOutside : Bool
  exitPoint : Option (Point K)
  exitEdgeIndex : ℤ
  isDead : Bool
  deathTimer : K
  score : ℤ
  invulnerableTimer : K
  hasWon : Bool
  territoryChanged : Bool
  prevX : Option K
  prevY : Option K
deriving DecidableEq, Repr

/-- JavaScript `a || b` for a possibly-undefined number `a`: yields `b`
when `a` is undefined or `0` (both falsy). -/
def jsOrElse (v : Option K) (dflt : K) : K :=
  match v with
  | none => dflt
  | some a => if a = 0 then dflt else a

/-- The transcendental operations `Math.sin/cos/atan2/sqrt` used by the
movement code, abstracted so the simulation stays polymorphic in `K`;
instantiated with the genuine real functions below. -/
structure NumOps (K : Type) where
  sinF : K → K
  cosF : K → K
  atan2F : K → K → K
  sqrtF : K → K

/-- Closed form of the two `while` loops normalizing `angleDiff` in
`updatePlayerMovement`: repeatedly shifting by `2·Math.PI` until the value
lies in `(-Math.PI, Math.PI]` computes exactly
`d - 2·Math.PI·⌈(d - Math.PI)/(2·Math.PI)⌉`. -/
def normalizeAngleDiff (d : K) : K :=
  d - 2 * mathPI * ⌈(d - mathPI) / (2 * mathPI)⌉

/-- `GameState.createPlayer`: regular 32-gon seed territory of radius
`STARTING_TERRITORY_SIZE/2 + 5`, score the floor of its area, speed 0. -/
def createPlayer (cosF sinF : K → K) (id : String) (x y : K) (color : String) : Player K :=
  let radius : K := STARTING_TERRITORY_SIZE / 2 + 5
  let segments : ℕ := 32
  let territory : List (Point K) := (List.range segments).map (fun i =>
    let angle : K := ((i : K) / (segments : K)) * mathPI * 2
    ⟨x + cosF angle * radius, y + sinF angle * radius⟩)
  let initialArea : ℤ := ⌊getPolygonArea territory⌋
  { id := id, x := x, y := y, angle := 0, targetAngle := 0, speed := 0, color := color,
    territory := territory, trail := [], isOutside := false, exitPoint := none,
    exitEdgeIndex := -1, isDead := false, deathTimer := 0, score := initialArea,
    invulnerableTimer := 0, hasWon := false, territoryChanged := false,
    prevX := none, prevY := none }

/-- `GameState.updatePlayerMovement`: normalize the heading, steer toward
the target by the shortest turn, advance, clamp to the circular arena, and
record the previous position. -/
def updatePlayerMovement (ops : NumOps K) (p : Player K) (dt : K) : Player K :=
  let angle0 := ops.atan2F (ops.sinF p.angle) (ops.cosF p.angle)
  let angleDiff := normalizeAngleDiff (p.targetAngle - angle0)
  let angle1 := angle0 + angleDiff * PLAYER_TURN_SPEED * dt
  let prevX := p.x
  let prevY := p.y
  let x1 := p.x + ops.cosF angle1 * p.speed * dt
  let y1 := p.y + ops.sinF angle1 * p.speed * dt
  let centerX : K := WORLD_WIDTH / 2
  let centerY : K := WORLD_HEIGHT / 2
  let maxRadius : K := WORLD_WIDTH / 2 - 1
  let dx := x1 - centerX
  let dy := y1 - centerY
  let distFromCenter := ops.sqrtF (dx * dx + dy * dy)
  let pos := if distFromCenter > maxRadius then
      let a := ops.atan2F dy dx
      (centerX + ops.cosF a * maxRadius, centerY + ops.sinF a * maxRadius)
    else (x1, y1)
  { p with
    angle := angle1
    x := pos.1
    y := pos.2
    prevX := some prevX
    prevY := some prevY }

/-- `GameState.updatePlayerTrail`: while outside, append the current
position when it is at least `TRAIL_POINT_DISTANCE` from the last trail
point (the source compares squared distances). -/
def updatePlayerTrail (p : Player K) : Player K :=
  if !p.isOutside then p
  else
    let currentPos : Point K := ⟨p.x, p.y⟩
    match p.trail.getLast? with
    | some lastPoint =>
      let dx := currentPos.x - lastPoint.x
      let dy := currentPos.y - lastPoint.y
      if dx * dx + dy * dy < TRAIL_POINT_DISTANCE * TRAIL_POINT_DISTANCE then p
      else { p with trail := p.trail ++ [currentPos] }
    | none => { p with trail := p.trail ++ [currentPos] }

/-- Per-player body of `GameState.update`: dead players only age their
death timer; live players decay invulnerability, move, and extend trails. -/
def updatePlayer (ops : NumOps K) (dt : K) (p : Player K) : Player K :=
  if p.isDead then { p with deathTimer := p.deathTimer + dt }
  else
    let p := if p.invulnerableTimer > 0 then
        { p with invulnerableTimer := p.invulnerableTimer - dt }
      else p
    updatePlayerTrail (updatePlayerMovement ops p dt)

/-- `GameState.update`. -/
def gameUpdate (ops : NumOps K) (dt : K) (players : List (Player K)) : List (Player K) :=
  players.map (updatePlayer ops dt)

/-- `GameState.setPlayerInput`: set the target angle of a live player and
activate speed on first input.  The player map has unique ids; on a list we
update the first match. -/
def setPlayerInput (players : List (Player K)) (playerId : String) (targetAngle : K) :
    List (Player K) :=
  match players.findIdx? (fun p => p.id = playerId) with
  | none => players
  | some i =>
    match players[i]? with
    | none => players
    | some p =>
      if p.isDead then players
      else players.set i { p with
        targetAngle := targetAngle
        speed := if p.speed = 0 then PLAYER_SPEED else p.speed }

/-- Fold a batch of `input` messages through `setPlayerInput`. -/
def applyInputs (inputs : List (String × K)) (players : List (Player K)) :
    List (Player K) :=
  inputs.foldl (fun ps inp => setPlayerInput ps inp.1 inp.2) players

/-! GameRoom from packages/server/src/rooms/GameRoom.ts. -/

/-- `GameRoom.calculateArea`: shoelace sum, then absolute value halved. -/
def calculateArea (polygon : List (Point K)) : K :=
  |((List.range polygon.length).foldl (fun area i =>
    let vi := polygon.getD i ⟨0, 0⟩
    let vj := polygon.getD ((i + 1) % polygon.length) ⟨0, 0⟩
    area + vi.x * vj.y - vj.x * vi.y) 0)| / 2

/-- `GameRoom.killPlayer`: mark dead, restart the death timer, drop the
trail. -/
def killPlayer (p : Player K) : Player K :=
  { p with
    isDead := true
    deathTimer := 0
    trail := [] }

/-- Hash-building inner loop over one player's trail segments, each tagged
with its array index. -/
def insertTrailSegs (h : SpatialHash K) (p : Player K) : SpatialHash K :=
  (List.range (p.trail.length - 1)).foldl (fun h i =>
    let p1 := p.trail.getD i ⟨0, 0⟩
    let p2 := p.trail.getD (i + 1) ⟨0, 0⟩
    insertSegment h ⟨"trail", p.id, p1, p2, (i : ℤ)⟩ p1 p2) h

/-- Hash-building inner loop over one player's territory edges. -/
def insertTerritorySegs (h : SpatialHash K) (p : Player K) : SpatialHash K :=
  (List.range p.territory.length).foldl (fun h i =>
    let p1 := p.territory.getD i ⟨0, 0⟩
    let p2 := p.territory.getD ((i + 1) % p.territory.length) ⟨0, 0⟩
    insertSegment h ⟨"territory", p.id, p1, p2, -1⟩ p1 p2) h

/-- First phase of `checkCaptureAndCollisions`: a fresh spatial hash (cell
size 100) filled with every live player's trail segments and territory
edges. -/
def buildHash (players : List (Player K)) : SpatialHash K :=
  players.foldl (fun h p =>
    if p.isDead then h else insertTerritorySegs (insertTrailSegs h p) p) ⟨100, []⟩

/-- The tunneling fallback of the entry branch: index of the territory
vertex closest to `pos` (first minimum; the source compares `Math.hypot`
values with strict `<`, squared distances give the same index). -/
def closestVertexIdx (territory : List (Point K)) (pos : Point K) : ℤ :=
  ((List.range territory.length).foldl (fun acc i =>
    let v := territory.getD i ⟨0, 0⟩
    let dsq := (v.x - pos.x) ^ 2 + (v.y - pos.y) ^ 2
    match acc.1 with
    | none => ((some dsq, (i : ℤ)) : Option K × ℤ)
    | some m => if dsq < m then (some dsq, (i : ℤ)) else acc)
    ((none : Option K), (0 : ℤ))).2

/-- Entry-branch hit: boundary intersection of the movement segment, or the
tunneling fallback `{point: curr, edgeIndex: closest vertex}`. -/
def entryHit (prevPos currentPos : Point K) (territory : List (Point K)) :
    BoundaryIntersection K :=
  match findBoundaryIntersection prevPos currentPos territory with
  | some h => h
  | none => ⟨currentPos, closestVertexIdx territory currentPos⟩

/-- Entry-branch candidate territory: capture polygon, simplification at
tolerance 1, adaptive re-simplification at 2 above 400 vertices, clockwise
normalization. -/
def entryNewTerritory (territory trail : List (Point K)) (exitPt : Point K)
    (exitEdge : ℤ) (entryPt : Point K) (entryEdge : ℤ) : List (Point K) :=
  let capturedPoly := computeCapture territory trail exitPt exitEdge entryPt entryEdge
  let newTerritory := simplifyPolygon capturedPoly 1
  let newTerritory :=
    if newTerritory.length > 400 then simplifyPolygon newTerritory 2 else newTerritory
  ensureClockwise newTerritory

/-- Loop-closure candidate territory: the same pipeline with entry data
equal to the exit data, and (as in the source) no clockwise
normalization. -/
def loopNewTerritory (territory trail : List (Point K)) (exitPt : Point K)
    (exitEdge : ℤ) : List (Point K) :=
  let capturedPoly := computeCapture territory trail exitPt exitEdge exitPt exitEdge
  let newTerritory := simplifyPolygon capturedPoly 1
  if newTerritory.length > 400 then simplifyPolygon newTerritory 2 else newTerritory

/-- `const worldRadius = (WORLD_WIDTH / 2) - 1.0` of the win-condition
block. -/
def worldRadius : K := WORLD_WIDTH / 2 - 1

/-- `const worldArea = Math.PI * worldRadius * worldRadius`. -/
def worldArea : K := mathPI * worldRadius * worldRadius

/-- `const winThreshold = worldArea * 0.99` (the literal `0.99` idealized
as `99/100`). -/
def winThreshold : K := worldArea * (99 / 100)

/-- EXIT detection: a live player not outside, not inside its territory and
out of grace starts a trail at the boundary hit, falling back to the
previous position with edge index 0. -/
def exitStep (p : Player K) (prevPos currentPos : Point K) (isInside : Bool) : Player K :=
  if !p.isOutside && !isInside && decide (p.invulnerableTimer ≤ 0) then
    match findBoundaryIntersection prevPos currentPos p.territory with
    | some hit =>
      { p with
        isOutside := true
        exitPoint := some hit.point
        exitEdgeIndex := hit.edgeIndex
        trail := [hit.point] }
    | none =>
      { p with
        isOutside := true
        exitPoint := some prevPos
        exitEdgeIndex := 0
        trail := [prevPos] }
  else p

/-- ENTRY detection: when outside and now inside, with an exit point and
more than 2 trail points, run the capture pipeline; commit only a valid
result (`length > 3 ∧ area > 100`; the `isFinite`/`isNaN` guards of the
source never fire in exact arithmetic); clear the trail state in both
cases.  Returns the player plus the `justCaptured` flag. -/
def entryStep (p : Player K) (prevPos currentPos : Point K) (isInside : Bool) :
    Player K × Bool :=
  if p.isOutside && isInside then
    let hit := entryHit prevPos currentPos p.territory
    match p.exitPoint with
    | some exitPt =>
      if p.trail.length > 2 then
        let newTerritory :=
          entryNewTerritory p.territory p.trail exitPt p.exitEdgeIndex hit.point hit.edgeIndex
        let newArea : ℤ := ⌊calculateArea newTerritory⌋
        if newTerritory.length > 3 ∧ newArea > 100 then
          ({ p with
            territory := newTerritory
            score := newArea
            territoryChanged := true
            invulnerableTimer := 1 / 2
            trail := []
            isOutside := false
            exitPoint := none
            exitEdgeIndex := -1 }, true)
        else
          ({ p with
            trail := []
            isOutside := false
            exitPoint := none
            exitEdgeIndex := -1 }, false)
      else (p, false)
    | none => (p, false)
  else (p, false)

/-- LOOP-CLOSURE detection: outside, not inside, exit point defined, more
than 10 trail points, and within 80 units of the exit point (squared-
distance form of the source's `Math.sqrt(...) < 80`); commit only under
strict growth (`length > 3 ∧ newArea > score`); always clear the trail
state once the distance test passes. -/
def loopStep (p : Player K) (currentPos : Point K) (isInside : Bool) : Player K × Bool :=
  if p.isOutside && !isInside then
    match p.exitPoint with
    | some exitPt =>
      if p.trail.length > 10 then
        if (currentPos.x - exitPt.x) ^ 2 + (currentPos.y - exitPt.y) ^ 2 < 6400 then
          let newTerritory := loopNewTerritory p.territory p.trail exitPt p.exitEdgeIndex
          let newArea : ℤ := ⌊calculateArea newTerritory⌋
          if newTerritory.length > 3 ∧ newArea > p.score then
            ({ p with
              territory := newTerritory
              score := newArea
              territoryChanged := true
              invulnerableTimer := 1 / 2
              trail := []
              isOutside := false
              exitPoint := none
              exitEdgeIndex := -1 }, true)
          else
            ({ p with
              trail := []
              isOutside := false
              exitPoint := none
              exitEdgeIndex := -1 }, false)
        else (p, false)
      else (p, false)
    | none => (p, false)
  else (p, false)

/-- Foreign-trail check of one collision-loop iteration: crossing an item
of another player's trail kills the item's owner when the owner is still
outside (looked up by id in the current player map). -/
def foreignStep (selfId : String) (prevPos currentPos : Point K) (item : SegItem K)
    (st : List (Player K)) : List (Player K) :=
  if item.playerId ≠ selfId ∧ item.type = "trail" ∧
      segmentsIntersect prevPos currentPos item.p1 item.p2 = true then
    match st.findIdx? (fun q => q.id = item.playerId) with
    | some v =>
      match st[v]? with
      | some victim => if victim.isOutside then st.set v (killPlayer victim) else st
      | none => st
    | none => st
  else st

/-- The `for (const item of nearby)` collision loop.  Crossing a foreign
trail kills its owner when the owner is still outside (no break, allowing
multi-kills); crossing one's own trail — unless inside, near the exit
point (within 100 units) or within the last 20 segments — kills the moving
player and breaks. -/
def collisionLoop (selfId : String) (k : ℕ) (isInside : Bool) (prevPos currentPos : Point K)
    (exitPt : Option (Point K)) (trailLen : ℕ) :
    List (SegItem K) → List (Player K) → List (Player K)
  | [], st => st
  | item :: rest, st =>
    let st1 := foreignStep selfId prevPos currentPos item st
    if item.playerId = selfId ∧ item.type = "trail" then
      let isNearExitPoint :=
        match exitPt with
        | some e => decide ((currentPos.x - e.x) ^ 2 + (currentPos.y - e.y) ^ 2 < 10000)
        | none => false
      if !isInside && !isNearExitPoint && decide ((trailLen : ℤ) - item.index > 20) &&
          segmentsIntersect prevPos currentPos item.p1 item.p2 then
        match st1[k]? with
        | some selfP => st1.set k (killPlayer selfP)
        | none => st1
      else collisionLoop selfId k isInside prevPos currentPos exitPt trailLen rest st1
    else collisionLoop selfId k isInside prevPos currentPos exitPt trailLen rest st1

/-- All items stored in the hash, bucket order. -/
def hashItems (h : SpatialHash K) : List (SegItem K) :=
  (h.buckets.map Prod.snd).flatten

/-- Relation between a player list and any list obtained from it by
killing some entries: every slot is unchanged or `killPlayer`-ed.  This is
the shape of all mutation done by the collision loop. -/
def KillShape (st st' : List (Player K)) : Prop :=
  ∀ j : ℕ, st'[j]? = st[j]? ∨ ∃ p, st[j]? = some p ∧ st'[j]? = some (killPlayer p)

/-- Tail of the per-player loop after the three capture branches: skip the
rest on `justCaptured`, otherwise the victory latch (which also skips
collisions), otherwise collision detection for outside players. -/
def afterCapture (h : SpatialHash K) (st : List (Player K)) (k : ℕ) (player : Player K)
    (isInside : Bool) (prevPos : Point K) (justCaptured : Bool) : List (Player K) :=
  let st := st.set k player
  if justCaptured then st
  else if decide ((player.score : K) ≥ winThreshold) then
    let player := { player with hasWon := true }
    let player :=
      if player.isOutside then
        { player with
          isOutside := false
          trail := []
          exitPoint := none
          exitEdgeIndex := -1 }
      else player
    st.set k player
  else if player.isOutside then
    collisionLoop player.id k isInside prevPos ⟨player.x, player.y⟩ player.exitPoint
      player.trail.length (hashQuery h player.x player.y) st
  else st

/-- Body of one iteration of the per-player loop for a live player: exit,
entry, loop closure, then `afterCapture`. -/
def processBody (h : SpatialHash K) (st : List (Player K)) (k : ℕ) (player : Player K) :
    List (Player K) :=
  let currentPos : Point K := ⟨player.x, player.y⟩
  let prevPos : Point K := ⟨jsOrElse player.prevX player.x, jsOrElse player.prevY player.y⟩
  let isInside := isPointInPolygon currentPos player.territory
  let p1 := exitStep player prevPos currentPos isInside
  let pe := entryStep p1 prevPos currentPos isInside
  let pl := loopStep pe.1 currentPos isInside
  afterCapture h st k pl.1 isInside prevPos (pe.2 || pl.2)

/-- One iteration of the per-player loop of `checkCaptureAndCollisions`. -/
def processPlayer (h : SpatialHash K) (st : List (Player K)) (k : ℕ) : List (Player K) :=
  match st[k]? with
  | none => st
  | some player => if player.isDead then st else processBody h st k player

/-- `GameRoom.checkCaptureAndCollisions`: build the hash from the pre-tick
trails and territories, then process the players in order, later players
seeing the mutations made by earlier ones. -/
def checkCaptureAndCollisions (players : List (Player K)) : List (Player K) :=
  let h := buildHash players
  (List.range players.length).foldl (fun st k => processPlayer h st k) players

/-- One simulation tick of `GameRoom.update`: pending client inputs, the
physics update, bot inputs, then capture/collision resolution. -/
def tick (ops : NumOps K) (inputs botInputs : List (String × K)) (dt : K)
    (players : List (Player K)) : List (Player K) :=
  checkCaptureAndCollisions (applyInputs botInputs (gameUpdate ops dt (applyInputs inputs players)))

/-- Iterated ticks under a schedule of inputs and timesteps. -/
def tickSeq (ops : NumOps K) (sched : ℕ → List (String × K) × List (String × K) × K)
    (players : List (Player K)) : ℕ → List (Player K)
  | 0 => players
  | n + 1 => tick ops (sched n).1 (sched n).2.1 (sched n).2.2 (tickSeq ops sched players n)

/-- JavaScript `Math.atan2 y x`: the argument of the complex number
`x + y·i`, with range `(-π, π]`. -/
noncomputable def atan2 (y x : ℝ) : ℝ := Complex.arg ⟨x, y⟩

/-- The genuine real-number operations used by the server. -/
noncomputable def realOps : NumOps ℝ := ⟨Real.sin, Real.cos, atan2, Real.sqrt⟩

/-- `createPlayer` over the reals with the genuine `Math.cos`/`Math.sin`. -/
noncomputable def createPlayerR (id : String) (x y : ℝ) (color : String) : Player ℝ :=
  createPlayer Real.cos Real.sin id x y color

/-- `updatePlayerMovement` over the reals. -/
noncomputable def updatePlayerMovementR (p : Player ℝ) (dt : ℝ) : Player ℝ :=
  updatePlayerMovement realOps p dt

/-- The record committed by the loop-closure branch. -/
def loopCommitRec (p : Player K) (e : Point K) : Player K :=
  { p with
    territory := loopNewTerritory p.territory p.trail e p.exitEdgeIndex
    score := ⌊calculateArea (loopNewTerritory p.territory p.trail e p.exitEdgeIndex)⌋
    territoryChanged := true
    invulnerableTimer := 1 / 2
    trail := []
    isOutside := false
    exitPoint := none
    exitEdgeIndex := -1 }

/-- The record left by a rejected capture: trail state cleared, the rest
untouched. -/
def clearRec (p : Player K) : Player K :=
  { p with
    trail := []
    isOutside := false
    exitPoint := none
    exitEdgeIndex := -1 }

/-- The record committed by the entry branch for candidate `newT`. -/
def entryCommitRec (p : Player K) (newT : List (Point K)) : Player K :=
  { p with
    territory := newT
    score := ⌊calculateArea newT⌋
    territoryChanged := true
    invulnerableTimer := 1 / 2
    trail := []
    isOutside := false
    exitPoint := none
    exitEdgeIndex := -1 }

/-- The entry-branch candidate territory of player `p` whose trail began at
exit point `e`, with the hit computed from the player's movement segment. -/
def entryCandidate (p : Player K) (e : Point K) : List (Point K) :=
  entryNewTerritory p.territory p.trail e p.exitEdgeIndex
    (entryHit ⟨jsOrElse p.prevX p.x, jsOrElse p.prevY p.y⟩ ⟨p.x, p.y⟩ p.territory).point
    (entryHit ⟨jsOrElse p.prevX p.x, jsOrElse p.prevY p.y⟩ ⟨p.x, p.y⟩ p.territory).edgeIndex

/-! Concrete game states used to instantiate the theorems below. -/

/-- A 100×100 clockwise square territory. -/
def sqTerr : List (Point ℚ) := [⟨0, 0⟩, ⟨100, 0⟩, ⟨100, 100⟩, ⟨0, 100⟩]

/-- A player re-entering their square territory after a trail loop whose
orientation makes the boundary-tour candidate cancel: the commit shrinks
the territory (score 10000 → 8160). -/
def shrinkPlayer : Player ℚ :=
  { id := "A", x := 50, y := 1, angle := 0, targetAngle := 0, speed := 500,
    color := "c", territory := sqTerr,
    trail := [⟨50, 0⟩, ⟨130, -2⟩, ⟨130, -52⟩, ⟨-30, -52⟩, ⟨-30, -2⟩], isOutside := true,
    exitPoint := some ⟨50, 0⟩, exitEdgeIndex := 0, isDead := false, deathTimer := 0,
    score := 10000, invulnerableTimer := 0, hasWon := false, territoryChanged := false,
    prevX := some 50, prevY := some (-5) }

/-- A player re-entering with the opposite trail orientation: the commit
grows the territory (score 10000 → 18160). -/
def entryPlayer : Player ℚ :=
  { id := "A", x := 50, y := 1, angle := 0, targetAngle := 0, speed := 500,
    color := "c", territory := sqTerr,
    trail := [⟨50, 0⟩, ⟨-30, -2⟩, ⟨-30, -52⟩, ⟨130, -52⟩, ⟨130, -2⟩], isOutside := true,
    exitPoint := some ⟨50, 0⟩, exitEdgeIndex := 0, isDead := false, deathTimer := 0,
    score := 10000, invulnerableTimer := 0, hasWon := false, territoryChanged := false,
    prevX := some 50, prevY := some (-5) }

/-- A player closing a large open-space loop back to its exit point: 11
trail points, head within 80 units of the exit. -/
def loopPlayer : Player ℚ :=
  { id := "A", x := 50, y := -5, angle := 0, targetAngle := 0, speed := 500,
    color := "c", territory := sqTerr,
    trail := [⟨50, 0⟩, ⟨150, -5⟩, ⟨250, -10⟩, ⟨250, -80⟩, ⟨150, -120⟩, ⟨50, -140⟩,
      ⟨-50, -120⟩, ⟨-150, -80⟩, ⟨-150, -30⟩, ⟨-100, -10⟩, ⟨-50, -5⟩], isOutside := true,
    exitPoint := some ⟨50, 0⟩, exitEdgeIndex := 0, isDead := false, deathTimer := 0,
    score := 10000, invulnerableTimer := 0, hasWon := false, territoryChanged := false,
    prevX := some 50, prevY := some (-6) }

/-- A live player inside their territory whose score is above the win
threshold computed by the code (radius 2499) and below the one the claim
states (radius 2500). -/
def winPlayer : Player ℚ :=
  { id := "W", x := 50, y := 50, angle := 0, targetAngle := 0, speed := 500,
    color := "c", territory := sqTerr, trail := [], isOutside := false,
    exitPoint := none, exitEdgeIndex := -1, isDead := false, deathTimer := 0,
    score := 19430000, invulnerableTimer := 0, hasWon := false, territoryChanged := false,
    prevX := some 50, prevY := some 50 }

/-- A far-away square territory (keeps its hash cells out of the action). -/
def farTerrA : List (Point ℚ) := [⟨3000, 3000⟩, ⟨3010, 3000⟩, ⟨3010, 3010⟩, ⟨3000, 3010⟩]

/-- Another far-away square territory. -/
def farTerrB : List (Point ℚ) := [⟨1000, 1000⟩, ⟨1010, 1000⟩, ⟨1010, 1010⟩, ⟨1000, 1010⟩]

/-- A moving outside player whose movement segment (2495,2400)→(2505,2400)
geometrically crosses `missB`'s long trail segment, but whose 3×3 spatial
hash query (cells around y-cell 24) misses the trail's stored markers
(cells at y 18, 22 and 26). -/
def missA : Player ℚ :=
  { id := "A", x := 2505, y := 2400, angle := 0, targetAngle := 0, speed := 500, color := "c",
    territory := farTerrA, trail := [⟨2495, 2400⟩], isOutside := true,
    exitPoint := some ⟨2495, 2400⟩, exitEdgeIndex := 0, isDead := false, deathTimer := 0,
    score := 70, invulnerableTimer := 0, hasWon := false, territoryChanged := false,
    prevX := some 2495, prevY := some 2400 }

/-- The owner of an 800-unit vertical trail segment; its hash markers sit
only at its endpoints and midpoint. -/
def missB : Player ℚ :=
  { id := "B", x := 2500, y := 2600, angle := 0, targetAngle := 0, speed := 500, color := "c",
    territory := farTerrB, trail := [⟨2500, 1800⟩, ⟨2500, 2600⟩], isOutside := true,
    exitPoint := some ⟨2500, 1800⟩, exitEdgeIndex := 0, isDead := false, deathTimer := 0,
    score := 70, invulnerableTimer := 0, hasWon := false, territoryChanged := false,
    prevX := some 2500, prevY := some 2600 }

/-- A moving outside player whose movement segment (2455,2445)→(2455,2455)
crosses `cutB`'s short trail segment, whose markers do fall in the 3×3
query window. -/
def cutA : Player ℚ :=
  { id := "A", x := 2455, y := 2455, angle := 0, targetAngle := 0, speed := 500, color := "c",
    territory := farTerrA, trail := [⟨2455, 2445⟩], isOutside := true,
    exitPoint := some ⟨2455, 2445⟩, exitEdgeIndex := 0, isDead := false, deathTimer := 0,
    score := 70, invulnerableTimer := 0, hasWon := false, territoryChanged := false,
    prevX := some 2455, prevY := some 2445 }

/-- The outside owner of the trail segment (2450,2450)→(2460,2450) crossed
by `cutA`. -/
def cutB : Player ℚ :=
  { id := "B", x := 2460, y := 2450, angle := 0, targetAngle := 0, speed := 500, color := "c",
    territory := farTerrB, trail := [⟨2450, 2450⟩, ⟨2460, 2450⟩], isOutside := true,
    exitPoint := some ⟨2450, 2450⟩, exitEdgeIndex := 0, isDead := false, deathTimer := 0,
    score := 70, invulnerableTimer := 0, hasWon := false, territoryChanged := false,
    prevX := some 2455, prevY := some 2450 }

/-- A live player sitting inside their own territory with no trail. -/
def insideP : Player ℚ :=
  { id := "I", x := 50, y := 50, angle := 0, targetAngle := 0, speed := 500, color := "c",
    territory := sqTerr, trail := [], isOutside := false,
    exitPoint := none, exitEdgeIndex := -1, isDead := false, deathTimer := 0,
    score := 10000, invulnerableTimer := 0, hasWon := false, territoryChanged := false,
    prevX := some 50, prevY := some 50 }

/-- The per-edge ray-casting test of `isPointInPolygon`, with `vi` the
current vertex and `vj` its cyclic predecessor. -/
def edgeCross (pt vi vj : Point K) : Bool :=
  (decide (vi.y > pt.y) != decide (vj.y > pt.y)) &&
    decide (pt.x < (vj.x - vi.x) * (pt.y - vi.y) / (vj.y - vi.y) + vi.x)

/-- The toggle condition of iteration `i` of `isPointInPolygon`. -/
def ippPred (pt : Point K) (poly : List (Point K)) (i : ℕ) : Bool :=
  edgeCross pt (poly.getD i ⟨0, 0⟩)
    (poly.getD ((i + poly.length - 1) % poly.length) ⟨0, 0⟩)

/-- The winner invariant: a player with `hasWon` latched is inside (the
latch forces `isOutside = false`), alive, and at or above the win
threshold. -/
def WInv (p : Player K) : Prop :=
  p.hasWon = true → p.isOutside = false ∧ p.isDead = false ∧ (p.score : K) ≥ winThreshold

/-- Refinement of `KillShape`: every kill hits a slot whose player was
outside. -/
def KillShapeOut (st st' : List (Player K)) : Prop :=
  ∀ j : ℕ, st'[j]? = st[j]? ∨
    ∃ p, st[j]? = some p ∧ p.isOutside = true ∧ st'[j]? = some (killPlayer p)

/-- Degenerate numeric operations: enough to drive the movement code over
`ℚ` in concrete scenarios. -/
def qOps : NumOps ℚ := ⟨fun _ => 0, fun _ => 0, fun _ _ => 0, fun _ => 0⟩

/-- A constant schedule: no inputs, sixty ticks per second. -/
def constSched : ℕ → List (String × ℚ) × List (String × ℚ) × ℚ :=
  fun _ => ([], [], 1 / 60)

/-- A player whose victory is already latched. -/
def wonPlayer : Player ℚ :=
  { id := "W", x := 50, y := 50, angle := 0, targetAngle := 0, speed := 500,
    color := "c", territory := sqTerr, trail := [], isOutside := false,
    exitPoint := none, exitEdgeIndex := -1, isDead := false, deathTimer := 0,
    score := 19430000, invulnerableTimer := 0, hasWon := true, territoryChanged := false,
    prevX := some 50, prevY := some 50 }

/-- An unrelated outside player sharing the arena with `insideP`. -/
def roamP : Player ℚ :=
  { id := "R", x := 220, y := 50, angle := 0, targetAngle := 0, speed := 500, color := "c",
    territory := farTerrB, trail := [], isOutside := true,
    exitPoint := some ⟨220, 45⟩, exitEdgeIndex := 0, isDead := false, deathTimer := 0,
    score := 70, invulnerableTimer := 0, hasWon := false, territoryChanged := false,
    prevX := some 215, prevY := some 50 }

/-- The `i`-th vertex of the seed territory created at `(2500, 2500)`:
a regular 32-gon of radius `STARTING_TERRITORY_SIZE/2 + 5 = 155`. -/
noncomputable def seedVertex (i : ℕ) : Point ℝ :=
  ⟨2500 + Real.cos ((i : ℝ) / 32 * mathPI * 2) * (STARTING_TERRITORY_SIZE / 2 + 5),
   2500 + Real.sin ((i : ℝ) / 32 * mathPI * 2) * (STARTING_TERRITORY_SIZE / 2 + 5)⟩

/-- A player heading exactly along `π` who is told to steer to heading 0:
the post-steering angle leaves `(-π, π]`. -/
noncomputable def c8Player : Player ℝ :=
  { id := "A", x := 2500, y := 2500, angle := Real.pi, targetAngle := 0, speed := 0,
    color := "c", territory := [], trail := [], isOutside := false,
    exitPoint := none, exitEdgeIndex := -1, isDead := false, deathTimer := 0,
    score := 0, invulnerableTimer := 0, hasWon := false, territoryChanged := false,
    prevX := none, prevY := none }

/-! Helper lemmas characterizing the branches of `processPlayer`. -/

theorem exitStep_of_isOutside {p : Player K} (h : p.isOutside = true)
    (prevPos currentPos : Point K) (isInside : Bool) :
    exitStep p prevPos currentPos isInside = p := by
  simp [exitStep, h]

theorem entryStep_false (p : Player K) (prevPos currentPos : Point K) :
    entryStep p prevPos currentPos false = (p, false) := by
  simp [entryStep]

theorem loopStep_of_not_outside {p : Player K} (currentPos : Point K) (isInside : Bool)
    (h : p.isOutside = false) :
    loopStep p currentPos isInside = (p, false) := by
  simp [loopStep, h]

theorem processPlayer_eq_body {h : SpatialHash K} {st : List (Player K)} {k : ℕ}
    {p : Player K} (hk : st[k]? = some p) (hdead : p.isDead = false) :
    processPlayer h st k = processBody h st k p := by
  simp [processPlayer, hk, hdead]

theorem loopStep_fired {p : Player K} {e : Point K} (currentPos : Point K)
    (hout : p.isOutside = true) (hex : p.exitPoint = some e)
    (hlen : p.trail.length > 10)
    (hdist : (currentPos.x - e.x) ^ 2 + (currentPos.y - e.y) ^ 2 < 6400) :
    loopStep p currentPos false =
      if (loopNewTerritory p.territory p.trail e p.exitEdgeIndex).length > 3 ∧
          ⌊calculateArea (loopNewTerritory p.territory p.trail e p.exitEdgeIndex)⌋ > p.score then
        (loopCommitRec p e, true)
      else (clearRec p, false) := by
  rw [loopStep]
  simp only [hout, hex, Bool.not_false, Bool.and_self, if_true]
  rw [if_pos hlen, if_pos hdist]
  split
  · rfl
  · rfl

theorem afterCapture_justCaptured (h : SpatialHash K) (st : List (Player K)) (k : ℕ)
    (player : Player K) (isInside : Bool) (prevPos : Point K) :
    afterCapture h st k player isInside prevPos true = st.set k player := by
  simp [afterCapture]

theorem afterCapture_idle (h : SpatialHash K) (st : List (Player K)) (k : ℕ)
    {player : Player K} (isInside : Bool) (prevPos : Point K)
    (hsc : (player.score : K) < winThreshold) (hout : player.isOutside = false) :
    afterCapture h st k player isInside prevPos false = st.set k player := by
  rw [afterCapture]
  simp [not_le.2 hsc, hout]

/-- Under the loop-closure preconditions, `processPlayer` rewrites player
`k` by the loop-closure branch: commit exactly when the candidate has more
than 3 vertices and strictly larger area than the current score, and clear
the trail state either way. -/
theorem processPlayer_loopClosure {h : SpatialHash K} {st : List (Player K)} {k : ℕ}
    {p : Player K} {e : Point K}
    (hk : st[k]? = some p) (hdead : p.isDead = false) (hout : p.isOutside = true)
    (hin : isPointInPolygon ⟨p.x, p.y⟩ p.territory = false)
    (hex : p.exitPoint = some e) (hlen : p.trail.length > 10)
    (hdist : (p.x - e.x) ^ 2 + (p.y - e.y) ^ 2 < 6400)
    (hsc : (p.score : K) < winThreshold) :
    processPlayer h st k =
      st.set k
        (if (loopNewTerritory p.territory p.trail e p.exitEdgeIndex).length > 3 ∧
            ⌊calculateArea (loopNewTerritory p.territory p.trail e p.exitEdgeIndex)⌋ > p.score then
          loopCommitRec p e
        else clearRec p) := by
  rw [processPlayer_eq_body hk hdead, processBody]
  simp only [hin]
  rw [exitStep_of_isOutside hout, entryStep_false]
  rw [show (p, false).1 = p from rfl]
  rw [loopStep_fired (p := p) (e := e) ⟨p.x, p.y⟩ hout hex hlen hdist]
  by_cases hc : (loopNewTerritory p.territory p.trail e p.exitEdgeIndex).length > 3 ∧
      ⌊calculateArea (loopNewTerritory p.territory p.trail e p.exitEdgeIndex)⌋ > p.score
  · rw [if_pos hc, if_pos hc]
    exact afterCapture_justCaptured h st k (loopCommitRec p e) false _
  · rw [if_neg hc, if_neg hc]
    exact afterCapture_idle h st k false _ hsc rfl

theorem exitStep_true (p : Player K) (prevPos currentPos : Point K) :
    exitStep p prevPos currentPos true = p := by
  simp [exitStep]

theorem exitStep_of_invuln {p : Player K} (prevPos currentPos : Point K) (isInside : Bool)
    (h : ¬p.invulnerableTimer ≤ 0) :
    exitStep p prevPos currentPos isInside = p := by
  simp [exitStep, h]

theorem entryStep_of_not_outside {p : Player K} (prevPos currentPos : Point K)
    (isInside : Bool) (h : p.isOutside = false) :
    entryStep p prevPos currentPos isInside = (p, false) := by
  simp [entryStep, h]

theorem loopStep_true (p : Player K) (currentPos : Point K) :
    loopStep p currentPos true = (p, false) := by
  simp [loopStep]

theorem loopStep_of_trail_le {p : Player K} (currentPos : Point K) (isInside : Bool)
    (hlen : ¬p.trail.length > 10) :
    loopStep p currentPos isInside = (p, false) := by
  rw [loopStep]
  split
  · cases hep : p.exitPoint with
    | none => rfl
    | some e => simp [hlen]
  · rfl

theorem exitStep_fired_none {p : Player K} {prevPos : Point K} (currentPos : Point K)
    (hout : p.isOutside = false) (hti : p.invulnerableTimer ≤ 0)
    (hfb : findBoundaryIntersection prevPos currentPos p.territory = none) :
    exitStep p prevPos currentPos false =
      { p with
        isOutside := true
        exitPoint := some prevPos
        exitEdgeIndex := 0
        trail := [prevPos] } := by
  rw [exitStep]
  simp [hout, hti, hfb]

theorem exitStep_fired_some {p : Player K} {prevPos : Point K} {hit : BoundaryIntersection K}
    (currentPos : Point K)
    (hout : p.isOutside = false) (hti : p.invulnerableTimer ≤ 0)
    (hfb : findBoundaryIntersection prevPos currentPos p.territory = some hit) :
    exitStep p prevPos currentPos false =
      { p with
        isOutside := true
        exitPoint := some hit.point
        exitEdgeIndex := hit.edgeIndex
        trail := [hit.point] } := by
  rw [exitStep]
  simp [hout, hti, hfb]

theorem entryStep_fired {p : Player K} {e : Point K} (prevPos currentPos : Point K)
    (hout : p.isOutside = true) (hex : p.exitPoint = some e) (hlen : p.trail.length > 2) :
    entryStep p prevPos currentPos true =
      (if (entryNewTerritory p.territory p.trail e p.exitEdgeIndex
            (entryHit prevPos currentPos p.territory).point
            (entryHit prevPos currentPos p.territory).edgeIndex).length > 3 ∧
          ⌊calculateArea (entryNewTerritory p.territory p.trail e p.exitEdgeIndex
            (entryHit prevPos currentPos p.territory).point
            (entryHit prevPos currentPos p.territory).edgeIndex)⌋ > 100 then
        (entryCommitRec p (entryNewTerritory p.territory p.trail e p.exitEdgeIndex
          (entryHit prevPos currentPos p.territory).point
          (entryHit prevPos currentPos p.territory).edgeIndex), true)
      else (clearRec p, false)) := by
  rw [entryStep]
  simp only [hout, hex, Bool.and_self, if_true]
  rw [if_pos hlen]
  split
  · rfl
  · rfl

theorem afterCapture_win (h : SpatialHash K) (st : List (Player K)) (k : ℕ)
    {player : Player K} (isInside : Bool) (prevPos : Point K)
    (hsc : (player.score : K) ≥ winThreshold) (hout : player.isOutside = false) :
    afterCapture h st k player isInside prevPos false =
      st.set k { player with hasWon := true } := by
  rw [afterCapture]
  simp [hsc, hout]

theorem afterCapture_win_out (h : SpatialHash K) (st : List (Player K)) (k : ℕ)
    {player : Player K} (isInside : Bool) (prevPos : Point K)
    (hsc : (player.score : K) ≥ winThreshold) (hout : player.isOutside = true) :
    afterCapture h st k player isInside prevPos false =
      st.set k
        { player with
          hasWon := true
          isOutside := false
          trail := []
          exitPoint := none
          exitEdgeIndex := -1 } := by
  rw [afterCapture]
  simp [hsc, hout]

/-- Under the entry preconditions, `processPlayer` rewrites player `k` by
the entry branch: commit exactly when the candidate is valid (more than 3
vertices and area above 100), and clear the trail state either way. -/
theorem processPlayer_entry {h : SpatialHash K} {st : List (Player K)} {k : ℕ}
    {p : Player K} {e : Point K}
    (hk : st[k]? = some p) (hdead : p.isDead = false) (hout : p.isOutside = true)
    (hin : isPointInPolygon ⟨p.x, p.y⟩ p.territory = true)
    (hex : p.exitPoint = some e) (hlen : p.trail.length > 2)
    (hsc : (p.score : K) < winThreshold) :
    processPlayer h st k =
      st.set k
        (if (entryNewTerritory p.territory p.trail e p.exitEdgeIndex
              (entryHit ⟨jsOrElse p.prevX p.x, jsOrElse p.prevY p.y⟩ ⟨p.x, p.y⟩
                p.territory).point
              (entryHit ⟨jsOrElse p.prevX p.x, jsOrElse p.prevY p.y⟩ ⟨p.x, p.y⟩
                p.territory).edgeIndex).length > 3 ∧
            ⌊calculateArea (entryNewTerritory p.territory p.trail e p.exitEdgeIndex
              (entryHit ⟨jsOrElse p.prevX p.x, jsOrElse p.prevY p.y⟩ ⟨p.x, p.y⟩
                p.territory).point
              (entryHit ⟨jsOrElse p.prevX p.x, jsOrElse p.prevY p.y⟩ ⟨p.x, p.y⟩
                p.territory).edgeIndex)⌋ > 100 then
          entryCommitRec p (entryNewTerritory p.territory p.trail e p.exitEdgeIndex
            (entryHit ⟨jsOrElse p.prevX p.x, jsOrElse p.prevY p.y⟩ ⟨p.x, p.y⟩
              p.territory).point
            (entryHit ⟨jsOrElse p.prevX p.x, jsOrElse p.prevY p.y⟩ ⟨p.x, p.y⟩
              p.territory).edgeIndex)
        else clearRec p) := by
  rw [processPlayer_eq_body hk hdead, processBody]
  simp only [hin]
  rw [exitStep_of_isOutside hout, entryStep_fired _ _ hout hex hlen]
  by_cases hc : (entryNewTerritory p.territory p.trail e p.exitEdgeIndex
        (entryHit ⟨jsOrElse p.prevX p.x, jsOrElse p.prevY p.y⟩ ⟨p.x, p.y⟩
          p.territory).point
        (entryHit ⟨jsOrElse p.prevX p.x, jsOrElse p.prevY p.y⟩ ⟨p.x, p.y⟩
          p.territory).edgeIndex).length > 3 ∧
      ⌊calculateArea (entryNewTerritory p.territory p.trail e p.exitEdgeIndex
        (entryHit ⟨jsOrElse p.prevX p.x, jsOrElse p.prevY p.y⟩ ⟨p.x, p.y⟩
          p.territory).point
        (entryHit ⟨jsOrElse p.prevX p.x, jsOrElse p.prevY p.y⟩ ⟨p.x, p.y⟩
          p.territory).edgeIndex)⌋ > 100
  · rw [if_pos hc, if_pos hc]
    rw [show ((entryCommitRec p _, true) : Player K × Bool).1 = entryCommitRec p _ from rfl]
    rw [loopStep_true]
    exact afterCapture_justCaptured h st k _ true _
  · rw [if_neg hc, if_neg hc]
    rw [show ((clearRec p, false) : Player K × Bool).1 = clearRec p from rfl]
    rw [loopStep_true]
    exact afterCapture_idle h st k true _ hsc rfl

/-- Under the victory preconditions (live, inside with a clean trail state,
score at or above the threshold), `processPlayer` only latches `hasWon`. -/
theorem processPlayer_victory {h : SpatialHash K} {st : List (Player K)} {k : ℕ}
    {p : Player K}
    (hk : st[k]? = some p) (hdead : p.isDead = false) (hout : p.isOutside = false)
    (htr : p.trail = []) (hep : p.exitPoint = none) (hei : p.exitEdgeIndex = -1)
    (hsc : (p.score : K) ≥ winThreshold) :
    processPlayer h st k = st.set k { p with hasWon := true } := by
  rw [processPlayer_eq_body hk hdead, processBody]
  cases hb : isPointInPolygon (⟨p.x, p.y⟩ : Point K) p.territory with
  | true =>
    rw [exitStep_true, entryStep_of_not_outside _ _ _ hout]
    rw [show ((p, false) : Player K × Bool).1 = p from rfl]
    rw [loopStep_true]
    exact afterCapture_win h st k _ _ hsc hout
  | false =>
    by_cases hti : p.invulnerableTimer ≤ 0
    · cases hfb : findBoundaryIntersection
          (⟨jsOrElse p.prevX p.x, jsOrElse p.prevY p.y⟩ : Point K) ⟨p.x, p.y⟩ p.territory with
      | none =>
        rw [exitStep_fired_none _ hout hti hfb, entryStep_false,
          loopStep_of_trail_le _ _ (by simp)]
        refine Eq.trans (afterCapture_win_out h st k false _ hsc rfl) ?_
        cases p
        simp_all
      | some hit =>
        rw [exitStep_fired_some _ hout hti hfb, entryStep_false,
          loopStep_of_trail_le _ _ (by simp)]
        refine Eq.trans (afterCapture_win_out h st k false _ hsc rfl) ?_
        cases p
        simp_all
    · rw [exitStep_of_invuln _ _ _ hti, entryStep_of_not_outside _ _ _ hout]
      rw [loopStep_of_not_outside _ _ hout]
      exact afterCapture_win h st k _ _ hsc hout

/-! Collision-loop analysis. -/

theorem killPlayer_id (p : Player K) : (killPlayer p).id = p.id := rfl

theorem killPlayer_isOutside (p : Player K) : (killPlayer p).isOutside = p.isOutside := rfl

theorem killPlayer_isDead (p : Player K) : (killPlayer p).isDead = true := rfl

theorem killPlayer_killPlayer (p : Player K) : killPlayer (killPlayer p) = killPlayer p := rfl

theorem killShape_refl (st : List (Player K)) : KillShape st st := fun _ => Or.inl rfl

theorem killShape_trans {st st1 st2 : List (Player K)} (h1 : KillShape st st1)
    (h2 : KillShape st1 st2) : KillShape st st2 := by
  intro j
  rcases h2 j with h2j | ⟨p1, hp1, h2j⟩
  · rw [h2j]; exact h1 j
  · rcases h1 j with h1j | ⟨p0, hp0, h1j⟩
    · rw [h1j] at hp1
      exact Or.inr ⟨p1, hp1, h2j⟩
    · rw [h1j] at hp1
      obtain rfl := (Option.some.injEq _ _).mp hp1.symm
      exact Or.inr ⟨p0, hp0, by rw [h2j, killPlayer_killPlayer]⟩

theorem killShape_set_kill {st : List (Player K)} {v : ℕ} {p : Player K}
    (hv : st[v]? = some p) : KillShape st (st.set v (killPlayer p)) := by
  intro j
  by_cases hj : v = j
  · subst hj
    obtain ⟨hlt, -⟩ := List.getElem?_eq_some_iff.mp hv
    exact Or.inr ⟨p, hv, List.getElem?_set_self hlt⟩
  · exact Or.inl (List.getElem?_set_ne hj)

theorem foreignStep_killShape (selfId : String) (prevPos currentPos : Point K)
    (item : SegItem K) (st : List (Player K)) :
    KillShape st (foreignStep selfId prevPos currentPos item st) := by
  rw [foreignStep]
  split
  · split
    next v hf =>
      split
      next victim hv =>
        split
        · exact killShape_set_kill hv
        · exact killShape_refl st
      next hv => exact killShape_refl st
    next hf => exact killShape_refl st
  · exact killShape_refl st

theorem collisionLoop_killShape (selfId : String) (k : ℕ) (isInside : Bool)
    (prevPos currentPos : Point K) (exitPt : Option (Point K)) (trailLen : ℕ) :
    ∀ (items : List (SegItem K)) (st : List (Player K)),
      KillShape st (collisionLoop selfId k isInside prevPos currentPos exitPt trailLen items st)
  | [], st => killShape_refl st
  | item :: rest, st => by
    simp only [collisionLoop]
    have hfs := foreignStep_killShape selfId prevPos currentPos item st
    split
    · split
      · split
        next selfP hsk => exact killShape_trans hfs (killShape_set_kill hsk)
        next hsk => exact hfs
      · exact killShape_trans hfs
          (collisionLoop_killShape selfId k isInside prevPos currentPos exitPt trailLen rest _)
    · exact killShape_trans hfs
        (collisionLoop_killShape selfId k isInside prevPos currentPos exitPt trailLen rest _)

theorem killShape_ids {st st' : List (Player K)} (hs : KillShape st st') :
    st'.map Player.id = st.map Player.id := by
  apply List.ext_getElem?
  intro n
  rw [List.getElem?_map, List.getElem?_map]
  rcases hs n with h | ⟨p, hp, h⟩
  · rw [h]
  · rw [h, hp]
    rfl

theorem findIdx?_congr_ids {a : String} :
    ∀ {l1 l2 : List (Player K)} (i : ℕ), l1.map Player.id = l2.map Player.id →
      l1.findIdx? (fun q => q.id = a) i = l2.findIdx? (fun q => q.id = a) i
  | [], [], _, _ => rfl
  | p :: l1, q :: l2, i, h => by
    simp only [List.map_cons, List.cons.injEq] at h
    simp only [List.findIdx?_cons, h.1]
    rw [findIdx?_congr_ids (i + 1) h.2]
  | [], _ :: _, _, h => by simp at h
  | _ :: _, [], _, h => by simp at h

/-- The collision loop never touches a slot whose player owns none of the
trail items in the list (foreign kills match by id; the self kill matches
the moving player's id). -/
theorem collisionLoop_no_kill {selfId : String} {k : ℕ} {isInside : Bool}
    {prevPos currentPos : Point K} {exitPt : Option (Point K)} {trailLen : ℕ} :
    ∀ (items : List (SegItem K)) (st : List (Player K)) {j : ℕ} {p : Player K},
      st[j]? = some p → (j = k → p.id = selfId) →
      (∀ item ∈ items, item.type = "trail" → item.playerId ≠ p.id) →
      (collisionLoop selfId k isInside prevPos currentPos exitPt trailLen items st)[j]?
        = some p
  | [], st, j, p, hj, _, _ => hj
  | item :: rest, st, j, p, hj, hself, hno => by
    have hno_head := hno item (List.mem_cons_self item rest)
    have hj1 : (foreignStep selfId prevPos currentPos item st)[j]? = some p := by
      rw [foreignStep]
      split
      next hguard =>
        split
        next v hf =>
          split
          next victim hv =>
            split
            · by_cases hjv : v = j
              · subst hjv
                rw [hj] at hv
                obtain rfl := (Option.some.injEq _ _).mp hv.symm
                obtain ⟨hvlt, hpred, -⟩ := List.findIdx?_eq_some_iff_getElem.mp hf
                obtain ⟨hlt2, hveq⟩ := List.getElem?_eq_some_iff.mp hj
                rw [hveq] at hpred
                simp only [decide_eq_true_eq] at hpred
                exact absurd hpred.symm (hno_head hguard.2.1)
              · rw [List.getElem?_set_ne hjv]
                exact hj
            · exact hj
          next hv => exact hj
        next hf => exact hj
      next hguard => exact hj
    simp only [collisionLoop]
    split
    next hguard2 =>
      split
      · split
        next selfP hsk =>
          by_cases hjk : k = j
          · subst hjk
            rw [hj1] at hsk
            obtain rfl := (Option.some.injEq _ _).mp hsk.symm
            exact absurd (hguard2.1.trans (hself rfl).symm) (hno_head hguard2.2)
          · rw [List.getElem?_set_ne hjk]
            exact hj1
        next hsk => exact hj1
      · exact collisionLoop_no_kill rest _ hj1 hself
          (fun it hm => hno it (List.mem_cons_of_mem item hm))
    next hguard2 =>
      exact collisionLoop_no_kill rest _ hj1 hself
        (fun it hm => hno it (List.mem_cons_of_mem item hm))

/-- A slot whose player is not outside is never touched by the collision
loop when it is not the moving player's slot. -/
theorem collisionLoop_not_outside {selfId : String} {k : ℕ} {isInside : Bool}
    {prevPos currentPos : Point K} {exitPt : Option (Point K)} {trailLen : ℕ} :
    ∀ (items : List (SegItem K)) (st : List (Player K)) {j : ℕ} {p : Player K},
      j ≠ k → st[j]? = some p → p.isOutside = false →
      (collisionLoop selfId k isInside prevPos currentPos exitPt trailLen items st)[j]?
        = some p
  | [], st, j, p, _, hj, _ => hj
  | item :: rest, st, j, p, hjk, hj, hout => by
    have hj1 : (foreignStep selfId prevPos currentPos item st)[j]? = some p := by
      rw [foreignStep]
      split
      · split
        next v hf =>
          split
          next victim hv =>
            split
            next hvout =>
              by_cases hjv : v = j
              · subst hjv
                rw [hj] at hv
                obtain rfl := (Option.some.injEq _ _).mp hv.symm
                rw [hout] at hvout
                exact absurd hvout (by simp)
              · rw [List.getElem?_set_ne hjv]
                exact hj
            next hvout => exact hj
          next hv => exact hj
        next hf => exact hj
      · exact hj
    simp only [collisionLoop]
    split
    · split
      · split
        next selfP hsk =>
          rw [List.getElem?_set_ne (fun hc => hjk hc.symm)]
          exact hj1
        next hsk => exact hj1
      · exact collisionLoop_not_outside rest _ hjk hj1 hout
    · exact collisionLoop_not_outside rest _ hjk hj1 hout

theorem done_preserved {st st' : List (Player K)} (hs : KillShape st st') {v : ℕ}
    {r : Player K} (hr : st[v]? = some r) (hd : r.isDead = true) :
    ∃ r', st'[v]? = some r' ∧ r'.isDead = true := by
  rcases hs v with h | ⟨p, hp, h⟩
  · exact ⟨r, h.trans hr, hd⟩
  · exact ⟨killPlayer p, h, rfl⟩

theorem good_preserved {st st' : List (Player K)} (hs : KillShape st st') {v : ℕ}
    {a : String} {r : Player K} (hr : st[v]? = some r) (hout : r.isOutside = true)
    (hid : r.id = a) (hf : st.findIdx? (fun q => q.id = a) = some v) :
    ∃ r', st'[v]? = some r' ∧ r'.isOutside = true ∧ r'.id = a ∧
      st'.findIdx? (fun q => q.id = a) = some v := by
  have hf' : st'.findIdx? (fun q => q.id = a) = some v :=
    (findIdx?_congr_ids 0 (killShape_ids hs)).trans hf
  rcases hs v with h | ⟨p, hp, h⟩
  · exact ⟨r, h.trans hr, hout, hid, hf'⟩
  · have hpr : p = r := by
      rw [hp] at hr
      exact (Option.some.injEq _ _).mp hr
    subst hpr
    exact ⟨killPlayer p, h, hout, hid, hf'⟩

theorem foreignStep_kills {selfId : String} {prevPos currentPos : Point K}
    {item : SegItem K} {st : List (Player K)} {v : ℕ} {r : Player K}
    (hne : item.playerId ≠ selfId) (htr : item.type = "trail")
    (hx : segmentsIntersect prevPos currentPos item.p1 item.p2 = true)
    (hf : st.findIdx? (fun q => q.id = item.playerId) = some v)
    (hr : st[v]? = some r) (hout : r.isOutside = true) :
    ∃ r', (foreignStep selfId prevPos currentPos item st)[v]? = some r' ∧
      r'.isDead = true := by
  obtain ⟨hlt, -⟩ := List.getElem?_eq_some_iff.mp hr
  rw [foreignStep, if_pos ⟨hne, htr, hx⟩]
  simp only [hf, hr, hout, if_true]
  exact ⟨killPlayer r, List.getElem?_set_self hlt, rfl⟩

/-- If the moving player crosses a foreign trail item of the list and its
owner (slot `v`, found by id) is still outside, and no item of the list can
trigger the self-collision break, then after the loop the owner is dead. -/
theorem collisionLoop_kills {selfId : String} {k : ℕ} {isInside : Bool}
    {prevPos currentPos : Point K} {exitPt : Option (Point K)} {trailLen : ℕ}
    {item0 : SegItem K} :
    ∀ (items : List (SegItem K)) (st : List (Player K)) {v : ℕ},
      (∀ it ∈ items, ¬(it.playerId = selfId ∧ it.type = "trail")) →
      item0 ∈ items → item0.playerId ≠ selfId → item0.type = "trail" →
      segmentsIntersect prevPos currentPos item0.p1 item0.p2 = true →
      (∃ r, st[v]? = some r ∧ r.isOutside = true ∧ r.id = item0.playerId ∧
        st.findIdx? (fun q => q.id = item0.playerId) = some v) →
      ∃ r', (collisionLoop selfId k isInside prevPos currentPos exitPt trailLen items st)[v]?
        = some r' ∧ r'.isDead = true
  | [], _, _, _, hmem, _, _, _, _ => absurd hmem (List.not_mem_nil item0)
  | item :: rest, st, v, hnoself, hmem, hne, htr, hx, hgood => by
    simp only [collisionLoop]
    rw [if_neg (hnoself item (List.mem_cons_self item rest))]
    rcases List.mem_cons.mp hmem with rfl | hmem'
    · obtain ⟨r, hr, hout, hid, hf⟩ := hgood
      rw [← hid] at hf
      obtain ⟨r', hr', hd⟩ := foreignStep_kills hne htr hx (hid ▸ hf) hr hout
      exact done_preserved
        (collisionLoop_killShape selfId k isInside prevPos currentPos exitPt trailLen rest _)
        hr' hd
    · obtain ⟨r, hr, hout, hid, hf⟩ := hgood
      obtain ⟨r', hr', hout', hid', hf'⟩ :=
        good_preserved (foreignStep_killShape selfId prevPos currentPos item st) hr hout hid hf
      exact collisionLoop_kills rest _
        (fun it hm => hnoself it (List.mem_cons_of_mem item hm)) hmem' hne htr hx
        ⟨r', hr', hout', hid', hf'⟩

/-! Hash contents. -/

theorem mem_hashItems_of_lookup {h : SpatialHash K} {key : ℤ × ℤ} {b : List (SegItem K)}
    {it : SegItem K} (hl : h.buckets.lookup key = some b) (hit : it ∈ b) :
    it ∈ hashItems h := by
  obtain ⟨l1, l2, heq, -⟩ := List.lookup_eq_some_iff.mp hl
  show it ∈ (h.buckets.map Prod.snd).flatten
  exact List.mem_flatten.mpr ⟨b, by rw [heq]; simp, hit⟩

theorem mem_getD_lookup {h : SpatialHash K} {key : ℤ × ℤ} {it : SegItem K}
    (hm : it ∈ (h.buckets.lookup key).getD []) : it ∈ hashItems h := by
  cases hl : h.buckets.lookup key with
  | none => rw [hl] at hm; exact absurd hm (List.not_mem_nil it)
  | some b => rw [hl] at hm; exact mem_hashItems_of_lookup hl hm

theorem mem_hashQuery {h : SpatialHash K} {x y : K} {it : SegItem K}
    (hm : it ∈ hashQuery h x y) : it ∈ hashItems h := by
  simp only [hashQuery, List.foldl_cons, List.foldl_nil] at hm
  simp only [List.mem_append, List.not_mem_nil, false_or] at hm
  rcases hm with ((((((((hm | hm) | hm) | hm) | hm) | hm) | hm) | hm) | hm) <;>
    exact mem_getD_lookup hm

theorem mem_hashItems_hashInsert {h : SpatialHash K} {obj it : SegItem K} {x y : K} :
    it ∈ hashItems (hashInsert h obj x y) ↔ it ∈ hashItems h ∨ it = obj := by
  rw [hashInsert, hashItems, hashItems]
  generalize hashGetKey h.cellSize x y = key
  induction h.buckets with
  | nil => simp [bucketsInsert]
  | cons b rest ih =>
    obtain ⟨k0, items0⟩ := b
    rw [bucketsInsert]
    split
    · simp only [List.map_cons, List.flatten_cons, List.mem_append, List.mem_cons,
        List.not_mem_nil, or_false]
      tauto
    · simp only [List.map_cons, List.flatten_cons, List.mem_append] at ih ⊢
      rw [ih]
      tauto

theorem mem_hashItems_insertSegment {h : SpatialHash K} {obj it : SegItem K}
    {p1 p2 : Point K} :
    it ∈ hashItems (insertSegment h obj p1 p2) ↔ it ∈ hashItems h ∨ it = obj := by
  rw [insertSegment, mem_hashItems_hashInsert, mem_hashItems_hashInsert,
    mem_hashItems_hashInsert]
  tauto

theorem mem_trailFold {p : Player K} {it : SegItem K} :
    ∀ (idxs : List ℕ) (h : SpatialHash K),
      it ∈ hashItems (idxs.foldl (fun h i =>
        let p1 := p.trail.getD i ⟨0, 0⟩
        let p2 := p.trail.getD (i + 1) ⟨0, 0⟩
        insertSegment h ⟨"trail", p.id, p1, p2, (i : ℤ)⟩ p1 p2) h) →
      it ∈ hashItems h ∨ it.type = "trail" ∧ it.playerId = p.id
  | [], _, hm => Or.inl hm
  | i :: rest, h, hm => by
    rw [List.foldl_cons] at hm
    rcases mem_trailFold rest _ hm with hh | hh
    · rcases mem_hashItems_insertSegment.mp hh with hh' | rfl
      · exact Or.inl hh'
      · exact Or.inr ⟨rfl, rfl⟩
    · exact Or.inr hh

theorem mem_insertTrailSegs {h : SpatialHash K} {p : Player K} {it : SegItem K}
    (hm : it ∈ hashItems (insertTrailSegs h p)) :
    it ∈ hashItems h ∨ it.type = "trail" ∧ it.playerId = p.id ∧ 2 ≤ p.trail.length := by
  rw [insertTrailSegs] at hm
  by_cases hlen : 2 ≤ p.trail.length
  · rcases mem_trailFold _ _ hm with hh | hh
    · exact Or.inl hh
    · exact Or.inr ⟨hh.1, hh.2, hlen⟩
  · have hz : p.trail.length - 1 = 0 := by omega
    rw [hz] at hm
    simp only [List.range_zero, List.foldl_nil] at hm
    exact Or.inl hm

theorem mem_terrFold {p : Player K} {it : SegItem K} :
    ∀ (idxs : List ℕ) (h : SpatialHash K),
      it ∈ hashItems (idxs.foldl (fun h i =>
        let p1 := p.territory.getD i ⟨0, 0⟩
        let p2 := p.territory.getD ((i + 1) % p.territory.length) ⟨0, 0⟩
        insertSegment h ⟨"territory", p.id, p1, p2, -1⟩ p1 p2) h) →
      it ∈ hashItems h ∨ it.type = "territory"
  | [], _, hm => Or.inl hm
  | i :: rest, h, hm => by
    rw [List.foldl_cons] at hm
    rcases mem_terrFold rest _ hm with hh | hh
    · rcases mem_hashItems_insertSegment.mp hh with hh' | rfl
      · exact Or.inl hh'
      · exact Or.inr rfl
    · exact Or.inr hh

theorem mem_insertTerritorySegs {h : SpatialHash K} {p : Player K} {it : SegItem K}
    (hm : it ∈ hashItems (insertTerritorySegs h p)) :
    it ∈ hashItems h ∨ it.type = "territory" := by
  rw [insertTerritorySegs] at hm
  exact mem_terrFold _ _ hm

theorem mem_buildHash_fold {it : SegItem K} :
    ∀ (players : List (Player K)) (h : SpatialHash K),
      it ∈ hashItems (players.foldl (fun h p =>
        if p.isDead then h else insertTerritorySegs (insertTrailSegs h p) p) h) →
      it.type = "trail" →
      it ∈ hashItems h ∨
        ∃ p ∈ players, p.isDead = false ∧ it.playerId = p.id ∧ 2 ≤ p.trail.length
  | [], _, hm, _ => Or.inl hm
  | p :: rest, h, hm, htr => by
    rw [List.foldl_cons] at hm
    rcases mem_buildHash_fold rest _ hm htr with hh | ⟨p', hp', hrest⟩
    · by_cases hd : p.isDead
      · rw [if_pos hd] at hh
        exact Or.inl hh
      · rw [if_neg hd] at hh
        rcases mem_insertTerritorySegs hh with hh' | hter
        · rcases mem_insertTrailSegs hh' with hh'' | howner
          · exact Or.inl hh''
          · exact Or.inr ⟨p, List.mem_cons_self p rest,
              Bool.not_eq_true p.isDead ▸ eq_false_of_ne_true hd, howner.2⟩
        · rw [htr] at hter
          exact absurd hter (by simp)
    · exact Or.inr ⟨p', List.mem_cons_of_mem p hp', hrest⟩

/-- Every trail-typed item of the built hash belongs to a live player of
the list whose trail has at least two points. -/
theorem mem_buildHash_trail {players : List (Player K)} {it : SegItem K}
    (hm : it ∈ hashItems (buildHash players)) (htr : it.type = "trail") :
    ∃ p ∈ players, p.isDead = false ∧ it.playerId = p.id ∧ 2 ≤ p.trail.length := by
  rw [buildHash] at hm
  rcases mem_buildHash_fold players _ hm htr with hh | hgoal
  · exact absurd hh (by simp [hashItems])
  · exact hgoal

/-! Field preservation through the capture branches. -/

theorem exitStep_fields (p : Player K) (a b : Point K) (c : Bool) :
    (exitStep p a b c).id = p.id ∧ (exitStep p a b c).isDead = p.isDead ∧
    (exitStep p a b c).x = p.x ∧ (exitStep p a b c).y = p.y ∧
    (exitStep p a b c).hasWon = p.hasWon ∧ (exitStep p a b c).score = p.score := by
  rw [exitStep]
  split
  · split <;> exact ⟨rfl, rfl, rfl, rfl, rfl, rfl⟩
  · exact ⟨rfl, rfl, rfl, rfl, rfl, rfl⟩

theorem entryStep_fields (p : Player K) (a b : Point K) (c : Bool) :
    (entryStep p a b c).1.id = p.id ∧ (entryStep p a b c).1.isDead = p.isDead ∧
    (entryStep p a b c).1.x = p.x ∧ (entryStep p a b c).1.y = p.y ∧
    (entryStep p a b c).1.hasWon = p.hasWon := by
  rw [entryStep]
  split
  · split
    · split
      · dsimp only
        split <;> exact ⟨rfl, rfl, rfl, rfl, rfl⟩
      · exact ⟨rfl, rfl, rfl, rfl, rfl⟩
    · exact ⟨rfl, rfl, rfl, rfl, rfl⟩
  · exact ⟨rfl, rfl, rfl, rfl, rfl⟩

theorem loopStep_fields (p : Player K) (b : Point K) (c : Bool) :
    (loopStep p b c).1.id = p.id ∧ (loopStep p b c).1.isDead = p.isDead ∧
    (loopStep p b c).1.x = p.x ∧ (loopStep p b c).1.y = p.y ∧
    (loopStep p b c).1.hasWon = p.hasWon := by
  rw [loopStep]
  split
  · split
    · split
      · split
        · dsimp only
          split <;> exact ⟨rfl, rfl, rfl, rfl, rfl⟩
        · exact ⟨rfl, rfl, rfl, rfl, rfl⟩
      · exact ⟨rfl, rfl, rfl, rfl, rfl⟩
    · exact ⟨rfl, rfl, rfl, rfl, rfl⟩
  · exact ⟨rfl, rfl, rfl, rfl, rfl⟩

/-! `afterCapture` slot analysis. -/

theorem afterCapture_collide (h : SpatialHash K) (st : List (Player K)) (k : ℕ)
    {player : Player K} (isInside : Bool) (prevPos : Point K)
    (hsc : (player.score : K) < winThreshold) (hout : player.isOutside = true) :
    afterCapture h st k player isInside prevPos false =
      collisionLoop player.id k isInside prevPos ⟨player.x, player.y⟩ player.exitPoint
        player.trail.length (hashQuery h player.x player.y) (st.set k player) := by
  rw [afterCapture]
  simp [not_le.2 hsc, hout]

theorem afterCapture_slot_not_outside (h : SpatialHash K) (st : List (Player K)) (k : ℕ)
    (player : Player K) (isInside : Bool) (prevPos : Point K) (jc : Bool)
    {j : ℕ} {pj : Player K} (hjk : j ≠ k) (hj : st[j]? = some pj)
    (hout : pj.isOutside = false) :
    (afterCapture h st k player isInside prevPos jc)[j]? = some pj := by
  have hkj : k ≠ j := fun hc => hjk hc.symm
  have hset : (st.set k player)[j]? = some pj := by
    rw [List.getElem?_set_ne hkj]
    exact hj
  rw [afterCapture]
  split
  · exact hset
  · split
    · rw [List.getElem?_set_ne hkj]
      exact hset
    · split
      · exact collisionLoop_not_outside _ _ hjk hset hout
      · exact hset

theorem afterCapture_slot_ne_no_kill (h : SpatialHash K) (st : List (Player K)) (k : ℕ)
    (player : Player K) (isInside : Bool) (prevPos : Point K) (jc : Bool)
    {j : ℕ} {pj : Player K} (hjk : j ≠ k) (hj : st[j]? = some pj)
    (hno : ∀ it ∈ hashQuery h player.x player.y, it.type = "trail" → it.playerId ≠ pj.id) :
    (afterCapture h st k player isInside prevPos jc)[j]? = some pj := by
  have hkj : k ≠ j := fun hc => hjk hc.symm
  have hset : (st.set k player)[j]? = some pj := by
    rw [List.getElem?_set_ne hkj]
    exact hj
  rw [afterCapture]
  split
  · exact hset
  · split
    · rw [List.getElem?_set_ne hkj]
      exact hset
    · split
      · exact collisionLoop_no_kill _ _ hset (fun hc => absurd hc hjk) hno
      · exact hset

theorem afterCapture_slot_k (h : SpatialHash K) (st : List (Player K)) (k : ℕ)
    (player : Player K) (isInside : Bool) (prevPos : Point K) (jc : Bool)
    (hk : k < st.length)
    (hno : ∀ it ∈ hashQuery h player.x player.y, it.type = "trail" →
      it.playerId ≠ player.id) :
    ∃ q', (afterCapture h st k player isInside prevPos jc)[k]? = some q' ∧
      q'.isDead = player.isDead ∧ q'.id = player.id := by
  have hset : (st.set k player)[k]? = some player := List.getElem?_set_self hk
  rw [afterCapture]
  split
  · exact ⟨player, hset, rfl, rfl⟩
  · split
    · refine ⟨_, List.getElem?_set_self (by simpa using hk), ?_, ?_⟩ <;>
      · split <;> rfl
    · split
      · exact ⟨player, collisionLoop_no_kill _ _ hset (fun _ => rfl) hno, rfl, rfl⟩
      · exact ⟨player, hset, rfl, rfl⟩

/-! Id bookkeeping. -/

theorem ids_set_self {st : List (Player K)} {k : ℕ} {p : Player K}
    (hk : st[k]? = some p) : (st.set k p).map Player.id = st.map Player.id := by
  apply List.ext_getElem?
  intro n
  rw [List.getElem?_map, List.getElem?_map]
  by_cases hn : k = n
  · subst hn
    obtain ⟨hlt, -⟩ := List.getElem?_eq_some_iff.mp hk
    rw [List.getElem?_set_self hlt, hk]
  · rw [List.getElem?_set_ne hn]

theorem findIdx?_of_nodup_ids {st : List (Player K)}
    (hnodup : (st.map Player.id).Nodup) {v : ℕ} {pv : Player K}
    (hv : st[v]? = some pv) : st.findIdx? (fun q => q.id = pv.id) = some v := by
  obtain ⟨hlt, hveq⟩ := List.getElem?_eq_some_iff.mp hv
  rw [List.findIdx?_eq_some_iff_getElem]
  refine ⟨hlt, by simp [hveq], ?_⟩
  intro w hwv
  simp only [decide_eq_true_eq]
  intro hweq
  have hww : w < st.length := Nat.lt_trans hwv hlt
  have h1 : (st.map Player.id)[w]? = (st.map Player.id)[v]? := by
    rw [List.getElem?_map, List.getElem?_map, hv, List.getElem?_eq_getElem hww]
    simp [hweq]
  have h2 := List.getElem?_inj (by simpa using hww) hnodup h1
  omega

/-- Composed field preservation through the three capture branches. -/
theorem steps_fields (p : Player K) (a b : Point K) (c : Bool) :
    (loopStep (entryStep (exitStep p a b c) a b c).1 b c).1.id = p.id ∧
    (loopStep (entryStep (exitStep p a b c) a b c).1 b c).1.isDead = p.isDead ∧
    (loopStep (entryStep (exitStep p a b c) a b c).1 b c).1.x = p.x ∧
    (loopStep (entryStep (exitStep p a b c) a b c).1 b c).1.y = p.y ∧
    (loopStep (entryStep (exitStep p a b c) a b c).1 b c).1.hasWon = p.hasWon := by
  obtain ⟨h1, h2, h3, h4, h5, -⟩ := exitStep_fields p a b c
  obtain ⟨g1, g2, g3, g4, g5⟩ := entryStep_fields (exitStep p a b c) a b c
  obtain ⟨f1, f2, f3, f4, f5⟩ := loopStep_fields (entryStep (exitStep p a b c) a b c).1 b c
  exact ⟨f1.trans (g1.trans h1), f2.trans (g2.trans h2), f3.trans (g3.trans h3),
    f4.trans (g4.trans h4), f5.trans (g5.trans h5)⟩

/-- For a live outside player, away from their territory, whose trail is
too short for loop closure, the whole per-player pass reduces to the
collision loop over the spatial-hash query. -/
theorem processPlayer_collide {h : SpatialHash K} {st : List (Player K)} {k : ℕ}
    {p : Player K}
    (hk : st[k]? = some p) (hdead : p.isDead = false) (hout : p.isOutside = true)
    (hin : isPointInPolygon ⟨p.x, p.y⟩ p.territory = false)
    (hnl : ¬p.trail.length > 10) (hsc : (p.score : K) < winThreshold) :
    processPlayer h st k =
      collisionLoop p.id k false ⟨jsOrElse p.prevX p.x, jsOrElse p.prevY p.y⟩
        ⟨p.x, p.y⟩ p.exitPoint p.trail.length (hashQuery h p.x p.y) (st.set k p) := by
  rw [processPlayer_eq_body hk hdead, processBody]
  simp only [hin]
  rw [exitStep_of_isOutside hout, entryStep_false]
  rw [show ((p, false) : Player K × Bool).1 = p from rfl]
  rw [loopStep_of_trail_le ⟨p.x, p.y⟩ false hnl]
  exact afterCapture_collide h st k false _ hsc hout

/-- `afterCapture` cannot kill a slot whose player owns none of the
hashed trail items. -/
theorem afterCapture_alive (h : SpatialHash K) (cur : List (Player K)) (k : ℕ)
    (pl : Player K) (c : Bool) (a : Point K) (jc : Bool) {j : ℕ} {q : Player K} {s : String}
    (hq : cur[j]? = some q) (hqd : q.isDead = false) (hqa : q.id = s)
    (hjk : j = k → pl.id = s ∧ pl.isDead = false ∧ k < cur.length)
    (hno : ∀ it ∈ hashItems h, it.type = "trail" → it.playerId ≠ s) :
    ∃ q', (afterCapture h cur k pl c a jc)[j]? = some q' ∧
      q'.isDead = false ∧ q'.id = s := by
  by_cases hjk' : j = k
  · subst hjk'
    obtain ⟨hid, hd, hlt⟩ := hjk rfl
    obtain ⟨q', hs', hd', hid'⟩ := afterCapture_slot_k h cur j pl c a jc hlt
      (fun it hm htr => by rw [hid]; exact hno it (mem_hashQuery hm) htr)
    exact ⟨q', hs', by rw [hd', hd], by rw [hid', hid]⟩
  · refine ⟨q, ?_, hqd, hqa⟩
    exact afterCapture_slot_ne_no_kill h cur k pl c a jc hjk' hq
      (fun it hm htr => by rw [hqa]; exact hno it (mem_hashQuery hm) htr)

/-- One per-player pass cannot kill a player who owns none of the hashed
trail items. -/
theorem processPlayer_alive {h : SpatialHash K} {cur : List (Player K)} {k j : ℕ}
    {q : Player K} {s : String}
    (hq : cur[j]? = some q) (hqd : q.isDead = false) (hqa : q.id = s)
    (hno : ∀ it ∈ hashItems h, it.type = "trail" → it.playerId ≠ s) :
    ∃ q', (processPlayer h cur k)[j]? = some q' ∧ q'.isDead = false ∧ q'.id = s := by
  cases hkk : cur[k]? with
  | none =>
    have heq : processPlayer h cur k = cur := by simp [processPlayer, hkk]
    rw [heq]
    exact ⟨q, hq, hqd, hqa⟩
  | some player =>
    by_cases hpd : player.isDead
    · have heq : processPlayer h cur k = cur := by simp [processPlayer, hkk, hpd]
      rw [heq]
      exact ⟨q, hq, hqd, hqa⟩
    · have hpd' : player.isDead = false := by simpa using hpd
      rw [processPlayer_eq_body hkk hpd', processBody]
      refine afterCapture_alive h cur k _ _ _ _ hq hqd hqa ?_ hno
      intro hjk
      subst hjk
      rw [hq] at hkk
      have hqp : q = player := (Option.some.injEq _ _).mp hkk
      have hida : player.id = s := by rw [← hqp]; exact hqa
      obtain ⟨hlt, -⟩ := List.getElem?_eq_some_iff.mp hq
      obtain ⟨f1, f2, -, -, -⟩ := steps_fields player
        ⟨jsOrElse player.prevX player.x, jsOrElse player.prevY player.y⟩
        ⟨player.x, player.y⟩ (isPointInPolygon ⟨player.x, player.y⟩ player.territory)
      exact ⟨f1.trans hida, f2.trans hpd', hlt⟩

/-- The per-player fold cannot kill a player who owns none of the hashed
trail items. -/
theorem foldl_alive {h : SpatialHash K} {j : ℕ} {s : String}
    (hno : ∀ it ∈ hashItems h, it.type = "trail" → it.playerId ≠ s) :
    ∀ (ks : List ℕ) (cur : List (Player K)) (q : Player K),
      cur[j]? = some q → q.isDead = false → q.id = s →
      ∃ q', (ks.foldl (fun st k => processPlayer h st k) cur)[j]? = some q' ∧
        q'.isDead = false ∧ q'.id = s
  | [], _, q, hq, hd, hid => ⟨q, hq, hd, hid⟩
  | k :: rest, cur, q, hq, hd, hid => by
    rw [List.foldl_cons]
    obtain ⟨q', hq', hd', hid'⟩ := processPlayer_alive hq hd hid hno
    exact foldl_alive hno rest _ q' hq' hd' hid'

/-! Winner-invariant machinery for the temporal claim. -/

theorem entryStep_of_trail_le {p : Player K} (a b : Point K) (c : Bool)
    (hlen : ¬p.trail.length > 2) :
    entryStep p a b c = (p, false) := by
  rw [entryStep]
  split
  · cases hep : p.exitPoint with
    | none => rfl
    | some e => simp [hlen]
  · rfl

/-- `exitStep` either leaves the player untouched or starts a one-point
trail outside. -/
theorem exitStep_cases (p : Player K) (a b : Point K) (c : Bool) :
    exitStep p a b c = p ∨
    ∃ pt i, exitStep p a b c =
      { p with
        isOutside := true
        exitPoint := some pt
        exitEdgeIndex := i
        trail := [pt] } := by
  rw [exitStep]
  split
  · cases hfb : findBoundaryIntersection a b p.territory with
    | some hit => exact Or.inr ⟨hit.point, hit.edgeIndex, rfl⟩
    | none => exact Or.inr ⟨a, 0, rfl⟩
  · exact Or.inl rfl

/-- A player who starts the capture branches inside keeps their score and
triggers no capture commit. -/
theorem steps_of_not_outside {p : Player K} (a b : Point K) (c : Bool)
    (hout : p.isOutside = false) :
    (loopStep (entryStep (exitStep p a b c) a b c).1 b c).1.score = p.score ∧
    ((entryStep (exitStep p a b c) a b c).2
      || (loopStep (entryStep (exitStep p a b c) a b c).1 b c).2) = false := by
  rcases exitStep_cases p a b c with he | ⟨pt, i, he⟩
  · rw [he, entryStep_of_not_outside a b c hout]
    dsimp only
    rw [loopStep_of_not_outside b c hout]
    exact ⟨rfl, rfl⟩
  · rw [he, entryStep_of_trail_le a b c (by simp)]
    dsimp only
    rw [loopStep_of_trail_le b c (by simp)]
    exact ⟨rfl, rfl⟩

/-- A non-moving slot that is not outside passes through one per-player
iteration unchanged. -/
theorem processPlayer_not_outside {h : SpatialHash K} {st : List (Player K)} {k j : ℕ}
    {pj : Player K} (hjk : j ≠ k) (hj : st[j]? = some pj)
    (hout : pj.isOutside = false) :
    (processPlayer h st k)[j]? = some pj := by
  cases hkk : st[k]? with
  | none => simpa [processPlayer, hkk] using hj
  | some player =>
    by_cases hpd : player.isDead
    · simpa [processPlayer, hkk, hpd] using hj
    · rw [processPlayer_eq_body hkk (by simpa using hpd), processBody]
      exact afterCapture_slot_not_outside h st k _ _ _ _ hjk hj hout

/-- A live inside player at or above the win threshold takes the victory
branch: `hasWon` is latched, the player stays inside and alive, and the
score is untouched. -/
theorem processPlayer_winner {h : SpatialHash K} {st : List (Player K)} {k : ℕ}
    {p : Player K}
    (hk : st[k]? = some p) (hdead : p.isDead = false) (hout : p.isOutside = false)
    (hsc : (p.score : K) ≥ winThreshold) :
    ∃ q, (processPlayer h st k)[k]? = some q ∧ q.hasWon = true ∧ q.isDead = false ∧
      q.isOutside = false ∧ q.score = p.score := by
  obtain ⟨hlt, -⟩ := List.getElem?_eq_some_iff.mp hk
  rw [processPlayer_eq_body hk hdead, processBody]
  obtain ⟨hscore, hjc⟩ := steps_of_not_outside
    ⟨jsOrElse p.prevX p.x, jsOrElse p.prevY p.y⟩ ⟨p.x, p.y⟩
    (isPointInPolygon ⟨p.x, p.y⟩ p.territory) hout
  obtain ⟨f1, f2, f3, f4, f5⟩ := steps_fields p
    ⟨jsOrElse p.prevX p.x, jsOrElse p.prevY p.y⟩ ⟨p.x, p.y⟩
    (isPointInPolygon ⟨p.x, p.y⟩ p.territory)
  rw [hjc]
  generalize hBIG : (loopStep (entryStep (exitStep p
      ⟨jsOrElse p.prevX p.x, jsOrElse p.prevY p.y⟩ ⟨p.x, p.y⟩
      (isPointInPolygon ⟨p.x, p.y⟩ p.territory))
      ⟨jsOrElse p.prevX p.x, jsOrElse p.prevY p.y⟩ ⟨p.x, p.y⟩
      (isPointInPolygon ⟨p.x, p.y⟩ p.territory)).1 ⟨p.x, p.y⟩
      (isPointInPolygon ⟨p.x, p.y⟩ p.territory)).1 = PL at *
  have hsc2 : (PL.score : K) ≥ winThreshold := by
    rw [hscore]
    exact hsc
  by_cases hplo : PL.isOutside = true
  · rw [afterCapture_win_out h st k _ _ hsc2 hplo]
    refine ⟨_, List.getElem?_set_self hlt, rfl, ?_, rfl, ?_⟩
    · exact f2.trans hdead
    · exact hscore
  · have hplo' : PL.isOutside = false := by simpa using hplo
    rw [afterCapture_win h st k _ _ hsc2 hplo']
    refine ⟨_, List.getElem?_set_self hlt, rfl, ?_, ?_, ?_⟩
    · exact f2.trans hdead
    · exact hplo'
    · exact hscore

theorem killShapeOut_refl (st : List (Player K)) : KillShapeOut st st :=
  fun _ => Or.inl rfl

theorem killShapeOut_trans {st st1 st2 : List (Player K)} (h1 : KillShapeOut st st1)
    (h2 : KillShapeOut st1 st2) : KillShapeOut st st2 := by
  intro j
  rcases h2 j with h | ⟨p, hp, hpo, h⟩
  · rcases h1 j with h' | ⟨r, hr, hro, h'⟩
    · exact Or.inl (h.trans h')
    · exact Or.inr ⟨r, hr, hro, h.trans h'⟩
  · rcases h1 j with h' | ⟨r, hr, hro, h'⟩
    · exact Or.inr ⟨p, h'.symm.trans hp, hpo, h⟩
    · have hpq : p = killPlayer r := by
        rw [h'] at hp
        exact (Option.some.inj hp).symm
      refine Or.inr ⟨r, hr, hro, ?_⟩
      rw [h, hpq, killPlayer_killPlayer]

theorem killShapeOut_set_kill {st : List (Player K)} {v : ℕ} {p : Player K}
    (hv : st[v]? = some p) (hpo : p.isOutside = true) :
    KillShapeOut st (st.set v (killPlayer p)) := by
  intro j
  by_cases hj : v = j
  · subst hj
    obtain ⟨hlt, -⟩ := List.getElem?_eq_some_iff.mp hv
    exact Or.inr ⟨p, hv, hpo, List.getElem?_set_self hlt⟩
  · exact Or.inl (List.getElem?_set_ne hj)

theorem foreignStep_killShapeOut (selfId : String) (prevPos currentPos : Point K)
    (item : SegItem K) (st : List (Player K)) :
    KillShapeOut st (foreignStep selfId prevPos currentPos item st) := by
  rw [foreignStep]
  split
  · split
    next v hf =>
      split
      next victim hv =>
        split
        next hvo => exact killShapeOut_set_kill hv hvo
        next hvo => exact killShapeOut_refl st
      next hv => exact killShapeOut_refl st
    next hf => exact killShapeOut_refl st
  · exact killShapeOut_refl st

theorem collisionLoop_killShapeOut (selfId : String) (k : ℕ) (isInside : Bool)
    (prevPos currentPos : Point K) (exitPt : Option (Point K)) (trailLen : ℕ) :
    ∀ (items : List (SegItem K)) (st : List (Player K)),
      (∀ p : Player K, st[k]? = some p → p.isOutside = true) →
      KillShapeOut st
        (collisionLoop selfId k isInside prevPos currentPos exitPt trailLen items st)
  | [], st, _ => killShapeOut_refl st
  | item :: rest, st, hk => by
    simp only [collisionLoop]
    have hfs := foreignStep_killShapeOut selfId prevPos currentPos item st
    have hk1 : ∀ p : Player K, (foreignStep selfId prevPos currentPos item st)[k]? = some p →
        p.isOutside = true := by
      intro p hp
      rcases hfs k with heq | ⟨r, hr, hro, hkl⟩
      · rw [heq] at hp
        exact hk p hp
      · rw [hkl] at hp
        obtain rfl := Option.some.inj hp
        simpa [killPlayer_isOutside] using hro
    split
    · split
      · split
        next selfP hsk =>
          exact killShapeOut_trans hfs (killShapeOut_set_kill hsk (hk1 selfP hsk))
        next hsk => exact hfs
      · exact killShapeOut_trans hfs
          (collisionLoop_killShapeOut selfId k isInside prevPos currentPos exitPt trailLen
            rest _ hk1)
    · exact killShapeOut_trans hfs
        (collisionLoop_killShapeOut selfId k isInside prevPos currentPos exitPt trailLen
          rest _ hk1)

/-- The tail of the per-player loop preserves the winner invariant of
every slot, provided a would-be winner is protected: at or above the
threshold and not freshly captured. -/
theorem afterCapture_WInv (h : SpatialHash K) (st : List (Player K)) (k : ℕ)
    (pl : Player K) (c : Bool) (a : Point K) (jc : Bool)
    (hall : ∀ (j : ℕ) (p : Player K), st[j]? = some p → WInv p)
    (hpld : pl.isDead = false)
    (hprotect : pl.hasWon = true → (pl.score : K) ≥ winThreshold ∧ jc = false) :
    ∀ (j : ℕ) (q : Player K), (afterCapture h st k pl c a jc)[j]? = some q → WInv q := by
  intro j q hq
  rw [afterCapture] at hq
  by_cases hjc : jc = true
  · rw [if_pos hjc] at hq
    by_cases hjk : j = k
    · subst hjk
      by_cases hklt : j < st.length
      · rw [List.getElem?_set_self hklt] at hq
        obtain rfl := (Option.some.injEq _ _).mp hq
        intro hwon
        obtain ⟨-, hjcf⟩ := hprotect hwon
        rw [hjcf] at hjc
        simp at hjc
      · rw [List.set_eq_of_length_le (Nat.le_of_not_lt hklt)] at hq
        exact hall j q hq
    · rw [List.getElem?_set_ne (fun hc => hjk hc.symm)] at hq
      exact hall j q hq
  · rw [if_neg hjc] at hq
    by_cases hsc : (pl.score : K) ≥ winThreshold
    · rw [if_pos (decide_eq_true hsc)] at hq
      by_cases hjk : j = k
      · subst hjk
        by_cases hklt : j < st.length
        · rw [List.getElem?_set_self (by simpa using hklt)] at hq
          obtain rfl := (Option.some.injEq _ _).mp hq
          intro hwon
          refine ⟨?_, ?_, ?_⟩
          · by_cases hpo : ({ pl with hasWon := true } : Player K).isOutside = true
            · rw [if_pos hpo]
            · rw [if_neg hpo]
              simpa using hpo
          · split <;> exact hpld
          · split <;> exact hsc
        · rw [List.set_eq_of_length_le (by simpa using Nat.le_of_not_lt hklt),
            List.set_eq_of_length_le (Nat.le_of_not_lt hklt)] at hq
          exact hall j q hq
      · rw [List.getElem?_set_ne (fun hc => hjk hc.symm),
          List.getElem?_set_ne (fun hc => hjk hc.symm)] at hq
        exact hall j q hq
    · rw [if_neg (by simpa using hsc)] at hq
      by_cases hpo : pl.isOutside = true
      · rw [if_pos hpo] at hq
        have hout0 : ∀ p0 : Player K, (st.set k pl)[k]? = some p0 → p0.isOutside = true := by
          intro p0 hp0
          by_cases hklt : k < st.length
          · rw [List.getElem?_set_self hklt] at hp0
            obtain rfl := (Option.some.injEq _ _).mp hp0
            exact hpo
          · rw [List.set_eq_of_length_le (Nat.le_of_not_lt hklt)] at hp0
            rw [List.getElem?_eq_none (Nat.le_of_not_lt hklt)] at hp0
            simp at hp0
        have hks := collisionLoop_killShapeOut pl.id k c a ⟨pl.x, pl.y⟩ pl.exitPoint
          pl.trail.length (hashQuery h pl.x pl.y) (st.set k pl) hout0
        rcases hks j with heq | ⟨v, hv, hvo, hkill⟩
        · rw [heq] at hq
          by_cases hjk : j = k
          · subst hjk
            by_cases hklt : j < st.length
            · rw [List.getElem?_set_self hklt] at hq
              obtain rfl := (Option.some.injEq _ _).mp hq
              intro hwon
              obtain ⟨hsc2, -⟩ := hprotect hwon
              exact absurd hsc2 hsc
            · rw [List.set_eq_of_length_le (Nat.le_of_not_lt hklt)] at hq
              exact hall j q hq
          · rw [List.getElem?_set_ne (fun hc => hjk hc.symm)] at hq
            exact hall j q hq
        · rw [hkill] at hq
          obtain rfl := (Option.some.injEq _ _).mp hq
          intro hwon
          by_cases hjk : j = k
          · rw [hjk] at hv
            by_cases hklt : k < st.length
            · rw [List.getElem?_set_self hklt] at hv
              obtain rfl := (Option.some.injEq _ _).mp hv
              obtain ⟨hsc2, -⟩ := hprotect hwon
              exact absurd hsc2 hsc
            · rw [List.set_eq_of_length_le (Nat.le_of_not_lt hklt)] at hv
              rw [List.getElem?_eq_none (Nat.le_of_not_lt hklt)] at hv
              simp at hv
          · rw [List.getElem?_set_ne (fun hc => hjk hc.symm)] at hv
            obtain ⟨hvo2, -, -⟩ := hall j v hv hwon
            rw [hvo2] at hvo
            simp at hvo
      · rw [if_neg hpo] at hq
        by_cases hjk : j = k
        · subst hjk
          by_cases hklt : j < st.length
          · rw [List.getElem?_set_self hklt] at hq
            obtain rfl := (Option.some.injEq _ _).mp hq
            intro hwon
            obtain ⟨hsc2, -⟩ := hprotect hwon
            exact absurd hsc2 hsc
          · rw [List.set_eq_of_length_le (Nat.le_of_not_lt hklt)] at hq
            exact hall j q hq
        · rw [List.getElem?_set_ne (fun hc => hjk hc.symm)] at hq
          exact hall j q hq

/-- One per-player iteration preserves the winner invariant of every
slot. -/
theorem processPlayer_WInv {h : SpatialHash K} {st : List (Player K)} {k : ℕ}
    (hall : ∀ (j : ℕ) (p : Player K), st[j]? = some p → WInv p) :
    ∀ (j : ℕ) (q : Player K), (processPlayer h st k)[j]? = some q → WInv q := by
  cases hkk : st[k]? with
  | none =>
    intro j q hq
    have heq : processPlayer h st k = st := by simp [processPlayer, hkk]
    rw [heq] at hq
    exact hall j q hq
  | some player =>
    by_cases hpd : player.isDead
    · intro j q hq
      have heq : processPlayer h st k = st := by simp [processPlayer, hkk, hpd]
      rw [heq] at hq
      exact hall j q hq
    · have hpd' : player.isDead = false := by simpa using hpd
      intro j q hq
      rw [processPlayer_eq_body hkk hpd', processBody] at hq
      refine afterCapture_WInv h st k _ _ _ _ hall ?_ ?_ j q hq
      · obtain ⟨-, f2, -, -, -⟩ := steps_fields player
          ⟨jsOrElse player.prevX player.x, jsOrElse player.prevY player.y⟩
          ⟨player.x, player.y⟩ (isPointInPolygon ⟨player.x, player.y⟩ player.territory)
        exact f2.trans hpd'
      · intro hwon
        obtain ⟨-, -, -, -, f5⟩ := steps_fields player
          ⟨jsOrElse player.prevX player.x, jsOrElse player.prevY player.y⟩
          ⟨player.x, player.y⟩ (isPointInPolygon ⟨player.x, player.y⟩ player.territory)
        have hpw : player.hasWon = true := f5.symm.trans hwon
        obtain ⟨ho, -, hs⟩ := hall k player hkk hpw
        obtain ⟨hscore, hjc⟩ := steps_of_not_outside
          ⟨jsOrElse player.prevX player.x, jsOrElse player.prevY player.y⟩
          ⟨player.x, player.y⟩ (isPointInPolygon ⟨player.x, player.y⟩ player.territory) ho
        constructor
        · rw [hscore]
          exact hs
        · exact hjc

theorem foldl_WInv {h : SpatialHash K} :
    ∀ (ks : List ℕ) (cur : List (Player K)),
      (∀ (j : ℕ) (p : Player K), cur[j]? = some p → WInv p) →
      ∀ (j : ℕ) (q : Player K), (ks.foldl (fun st k => processPlayer h st k) cur)[j]? = some q → WInv q
  | [], _, hall => hall
  | k :: rest, cur, hall => by
    rw [List.foldl_cons]
    exact foldl_WInv rest _ (processPlayer_WInv hall)

/-- The collision phase preserves the winner invariant of every slot. -/
theorem checkCC_WInv {players : List (Player K)}
    (hall : ∀ (j : ℕ) (p : Player K), players[j]? = some p → WInv p) :
    ∀ (j : ℕ) (q : Player K), (checkCaptureAndCollisions players)[j]? = some q → WInv q := by
  rw [checkCaptureAndCollisions]
  exact foldl_WInv _ players hall

/-- One per-player iteration keeps a winner slot winning and alive. -/
theorem processPlayer_winner_slot {h : SpatialHash K} {st : List (Player K)} {k j : ℕ}
    {p : Player K} (hall : ∀ (i : ℕ) (r : Player K), st[i]? = some r → WInv r)
    (hj : st[j]? = some p) (hw : p.hasWon = true) :
    ∃ q, (processPlayer h st k)[j]? = some q ∧ q.hasWon = true ∧ q.isDead = false := by
  obtain ⟨ho, hd, hs⟩ := hall j p hj hw
  by_cases hjk : j = k
  · subst hjk
    obtain ⟨q, hq, h1, h2, -, -⟩ := processPlayer_winner hj hd ho hs
    exact ⟨q, hq, h1, h2⟩
  · exact ⟨p, processPlayer_not_outside hjk hj ho, hw, hd⟩

theorem foldl_winner {h : SpatialHash K} {j : ℕ} :
    ∀ (ks : List ℕ) (cur : List (Player K)),
      (∀ (i : ℕ) (r : Player K), cur[i]? = some r → WInv r) →
      ∀ p : Player K, cur[j]? = some p → p.hasWon = true →
      ∃ q, (ks.foldl (fun st k => processPlayer h st k) cur)[j]? = some q ∧
        q.hasWon = true ∧ q.isDead = false
  | [], _, hall, p, hp, hw => ⟨p, hp, hw, (hall _ p hp hw).2.1⟩
  | k :: rest, cur, hall, p, hp, hw => by
    rw [List.foldl_cons]
    obtain ⟨q, hq, hw', -⟩ := processPlayer_winner_slot hall hp hw
    exact foldl_winner rest _ (processPlayer_WInv hall) q hq hw'

/-- The collision phase keeps a winner slot winning and alive. -/
theorem checkCC_winner {players : List (Player K)} {j : ℕ} {p : Player K}
    (hall : ∀ (i : ℕ) (r : Player K), players[i]? = some r → WInv r)
    (hj : players[j]? = some p) (hw : p.hasWon = true) :
    ∃ q, (checkCaptureAndCollisions players)[j]? = some q ∧
      q.hasWon = true ∧ q.isDead = false := by
  rw [checkCaptureAndCollisions]
  exact foldl_winner _ players hall p hj hw

/-- `setPlayerInput` changes only `targetAngle` and `speed` of one slot. -/
theorem setPlayerInput_slot {players : List (Player K)} {pid : String} {ta : K}
    {j : ℕ} {p : Player K} (hj : players[j]? = some p) :
    ∃ q, (setPlayerInput players pid ta)[j]? = some q ∧ q.hasWon = p.hasWon ∧
      q.isDead = p.isDead ∧ q.isOutside = p.isOutside ∧ q.score = p.score := by
  rw [setPlayerInput]
  split
  · exact ⟨p, hj, rfl, rfl, rfl, rfl⟩
  next i hf =>
    split
    · exact ⟨p, hj, rfl, rfl, rfl, rfl⟩
    next r hr =>
      split
      · exact ⟨p, hj, rfl, rfl, rfl, rfl⟩
      · by_cases hij : i = j
        · subst hij
          obtain ⟨hlt, -⟩ := List.getElem?_eq_some_iff.mp hr
          rw [hj] at hr
          have hrp : r = p := ((Option.some.injEq _ _).mp hr).symm
          refine ⟨_, List.getElem?_set_self hlt, ?_, ?_, ?_, ?_⟩ <;> rw [hrp]
        · rw [List.getElem?_set_ne hij]
          exact ⟨p, hj, rfl, rfl, rfl, rfl⟩

theorem foldl_inputs_slot :
    ∀ (inputs : List (String × K)) (players : List (Player K)) (j : ℕ) (p : Player K),
      players[j]? = some p →
      ∃ q, (inputs.foldl (fun ps inp => setPlayerInput ps inp.1 inp.2) players)[j]?
          = some q ∧
        q.hasWon = p.hasWon ∧ q.isDead = p.isDead ∧ q.isOutside = p.isOutside ∧
        q.score = p.score
  | [], _, _, p, hj => ⟨p, hj, rfl, rfl, rfl, rfl⟩
  | inp :: rest, players, j, p, hj => by
    rw [List.foldl_cons]
    obtain ⟨q, hq, a1, a2, a3, a4⟩ := setPlayerInput_slot hj
    obtain ⟨r, hr, b1, b2, b3, b4⟩ := foldl_inputs_slot rest _ j q hq
    exact ⟨r, hr, b1.trans a1, b2.trans a2, b3.trans a3, b4.trans a4⟩

theorem applyInputs_slot (inputs : List (String × K)) {players : List (Player K)}
    {j : ℕ} {p : Player K} (hj : players[j]? = some p) :
    ∃ q, (applyInputs inputs players)[j]? = some q ∧
      q.hasWon = p.hasWon ∧ q.isDead = p.isDead ∧ q.isOutside = p.isOutside ∧
      q.score = p.score := by
  rw [applyInputs]
  exact foldl_inputs_slot inputs players j p hj

/-- `setPlayerInput` preserves the winner invariant of every slot. -/
theorem setPlayerInput_WInv {players : List (Player K)} {pid : String} {ta : K}
    (hall : ∀ (j : ℕ) (p : Player K), players[j]? = some p → WInv p) :
    ∀ (j : ℕ) (p : Player K), (setPlayerInput players pid ta)[j]? = some p → WInv p := by
  intro j q hq
  rw [setPlayerInput] at hq
  split at hq
  · exact hall j q hq
  next i hf =>
    split at hq
    · exact hall j q hq
    next r hr =>
      split at hq
      · exact hall j q hq
      · by_cases hij : i = j
        · subst hij
          obtain ⟨hlt, -⟩ := List.getElem?_eq_some_iff.mp hr
          rw [List.getElem?_set_self hlt] at hq
          obtain rfl := (Option.some.injEq _ _).mp hq
          intro hwon
          exact hall i r hr hwon
        · rw [List.getElem?_set_ne hij] at hq
          exact hall j q hq

theorem foldl_inputs_WInv :
    ∀ (inputs : List (String × K)) (players : List (Player K)),
      (∀ (j : ℕ) (p : Player K), players[j]? = some p → WInv p) →
      ∀ (j : ℕ) (p : Player K),
        (inputs.foldl (fun ps inp => setPlayerInput ps inp.1 inp.2) players)[j]?
          = some p → WInv p
  | [], _, hall => hall
  | inp :: rest, players, hall => by
    rw [List.foldl_cons]
    exact foldl_inputs_WInv rest _ (setPlayerInput_WInv hall)

theorem applyInputs_WInv (inputs : List (String × K)) (players : List (Player K))
    (hall : ∀ (j : ℕ) (p : Player K), players[j]? = some p → WInv p) :
    ∀ (j : ℕ) (p : Player K), (applyInputs inputs players)[j]? = some p → WInv p := by
  rw [applyInputs]
  exact foldl_inputs_WInv inputs players hall

theorem updatePlayerMovement_fields (ops : NumOps K) (p : Player K) (dt : K) :
    (updatePlayerMovement ops p dt).hasWon = p.hasWon ∧
    (updatePlayerMovement ops p dt).isOutside = p.isOutside ∧
    (updatePlayerMovement ops p dt).score = p.score ∧
    (updatePlayerMovement ops p dt).isDead = p.isDead := by
  rw [updatePlayerMovement]
  exact ⟨rfl, rfl, rfl, rfl⟩

theorem updatePlayerTrail_fields (p : Player K) :
    (updatePlayerTrail p).hasWon = p.hasWon ∧
    (updatePlayerTrail p).isOutside = p.isOutside ∧
    (updatePlayerTrail p).score = p.score ∧
    (updatePlayerTrail p).isDead = p.isDead := by
  rw [updatePlayerTrail]
  split
  · exact ⟨rfl, rfl, rfl, rfl⟩
  · split
    next lastPoint hl =>
      dsimp only
      split
      · exact ⟨rfl, rfl, rfl, rfl⟩
      · exact ⟨rfl, rfl, rfl, rfl⟩
    next hl => exact ⟨rfl, rfl, rfl, rfl⟩

theorem updatePlayer_fields (ops : NumOps K) (dt : K) (p : Player K) :
    (updatePlayer ops dt p).hasWon = p.hasWon ∧
    (updatePlayer ops dt p).isOutside = p.isOutside ∧
    (updatePlayer ops dt p).score = p.score ∧
    (updatePlayer ops dt p).isDead = p.isDead := by
  rw [updatePlayer]
  split
  · exact ⟨rfl, rfl, rfl, rfl⟩
  · by_cases hiv : p.invulnerableTimer > 0
    · rw [if_pos hiv]
      obtain ⟨m1, m2, m3, m4⟩ :=
        updatePlayerMovement_fields ops
          { p with invulnerableTimer := p.invulnerableTimer - dt } dt
      obtain ⟨t1, t2, t3, t4⟩ :=
        updatePlayerTrail_fields
          (updatePlayerMovement ops
            { p with invulnerableTimer := p.invulnerableTimer - dt } dt)
      exact ⟨t1.trans m1, t2.trans m2, t3.trans m3, t4.trans m4⟩
    · rw [if_neg hiv]
      obtain ⟨m1, m2, m3, m4⟩ := updatePlayerMovement_fields ops p dt
      obtain ⟨t1, t2, t3, t4⟩ := updatePlayerTrail_fields (updatePlayerMovement ops p dt)
      exact ⟨t1.trans m1, t2.trans m2, t3.trans m3, t4.trans m4⟩

theorem updatePlayer_WInv (ops : NumOps K) (dt : K) {p : Player K} (hw : WInv p) :
    WInv (updatePlayer ops dt p) := by
  intro hwon
  obtain ⟨f1, f2, f3, f4⟩ := updatePlayer_fields ops dt p
  rw [f1] at hwon
  obtain ⟨w1, w2, w3⟩ := hw hwon
  refine ⟨f2.trans w1, f4.trans w2, ?_⟩
  rw [f3]
  exact w3

theorem gameUpdate_slot (ops : NumOps K) (dt : K) {players : List (Player K)}
    {j : ℕ} {p : Player K} (hj : players[j]? = some p) :
    (gameUpdate ops dt players)[j]? = some (updatePlayer ops dt p) := by
  rw [gameUpdate, List.getElem?_map, hj]
  rfl

theorem gameUpdate_WInv (ops : NumOps K) (dt : K) {players : List (Player K)}
    (hall : ∀ (j : ℕ) (p : Player K), players[j]? = some p → WInv p) :
    ∀ (j : ℕ) (q : Player K), (gameUpdate ops dt players)[j]? = some q → WInv q := by
  intro j q hq
  rw [gameUpdate, List.getElem?_map] at hq
  cases hj : players[j]? with
  | none =>
    rw [hj] at hq
    simp at hq
  | some p0 =>
    rw [hj] at hq
    have hqv : updatePlayer ops dt p0 = q := by simpa using hq
    rw [← hqv]
    exact updatePlayer_WInv ops dt (hall j p0 hj)

/-- One tick preserves the winner invariant of every slot. -/
theorem tick_WInv (ops : NumOps K) (inputs botInputs : List (String × K)) (dt : K)
    {players : List (Player K)} (hall : ∀ (j : ℕ) (p : Player K), players[j]? = some p → WInv p) :
    ∀ (j : ℕ) (q : Player K), (tick ops inputs botInputs dt players)[j]? = some q → WInv q := by
  rw [tick]
  exact checkCC_WInv (applyInputs_WInv botInputs _
    (gameUpdate_WInv ops dt (applyInputs_WInv inputs players hall)))

/-- One tick keeps a winner slot winning and alive. -/
theorem tick_winner (ops : NumOps K) (inputs botInputs : List (String × K)) (dt : K)
    {players : List (Player K)} {j : ℕ} {p : Player K}
    (hall : ∀ (i : ℕ) (r : Player K), players[i]? = some r → WInv r)
    (hj : players[j]? = some p) (hw : p.hasWon = true) :
    ∃ q, (tick ops inputs botInputs dt players)[j]? = some q ∧
      q.hasWon = true ∧ q.isDead = false := by
  rw [tick]
  obtain ⟨p1, h1, a1, -, -, -⟩ := applyInputs_slot inputs hj
  have h2 := gameUpdate_slot ops dt h1
  obtain ⟨p3, h3, b1, -, -, -⟩ := applyInputs_slot botInputs h2
  obtain ⟨u1, -, -, -⟩ := updatePlayer_fields ops dt p1
  have hw3 : p3.hasWon = true := b1.trans (u1.trans (a1.trans hw))
  exact checkCC_winner (applyInputs_WInv botInputs _
    (gameUpdate_WInv ops dt (applyInputs_WInv inputs players hall))) h3 hw3

theorem tickSeq_WInv (ops : NumOps K)
    (sched : ℕ → List (String × K) × List (String × K) × K)
    (players : List (Player K)) (hall : ∀ (j : ℕ) (p : Player K), players[j]? = some p → WInv p) :
    ∀ (n j : ℕ) (q : Player K), (tickSeq ops sched players n)[j]? = some q → WInv q
  | 0, j, q, hq => hall j q hq
  | n + 1, j, q, hq => by
    simp only [tickSeq] at hq
    exact tick_WInv _ _ _ _
      (fun i r hr => tickSeq_WInv ops sched players hall n i r hr) j q hq

/-! Ray-casting parity machinery. -/

theorem parity_succ (c : ℕ) : decide ((c + 1) % 2 = 1) = !decide (c % 2 = 1) := by
  rcases Nat.mod_two_eq_zero_or_one c with hc | hc <;>
    simp [Nat.add_mod, hc]

/-- A fold that toggles a flag on a boolean condition computes the parity
of the number of hits. -/
theorem foldl_toggle_parity (f : ℕ → Bool) :
    ∀ (l : List ℕ) (b : Bool),
      l.foldl (fun ins i => if f i then !ins else ins) b
        = xor b (decide (l.countP f % 2 = 1))
  | [], b => by simp
  | i :: t, b => by
    rw [List.foldl_cons, foldl_toggle_parity f t (if f i then !b else b),
      List.countP_cons]
    cases hfi : f i <;> cases b <;> simp [hfi, parity_succ]

/-- `isPointInPolygon` is the parity of the set of crossed edges. -/
theorem ipp_parity (pt : Point K) (poly : List (Point K)) :
    isPointInPolygon pt poly
      = decide ((List.range poly.length).countP (ippPred pt poly) % 2 = 1) := by
  rw [show isPointInPolygon pt poly = (List.range poly.length).foldl
      (fun ins i => if ippPred pt poly i then !ins else ins) false from rfl]
  rw [foldl_toggle_parity]
  simp

/-- Reindexing a count over `range n` along an injection into `range n`
with full image. -/
theorem countP_range_comp (n : ℕ) (σ : ℕ → ℕ) (g : ℕ → Bool)
    (hσ : ∀ i, i < n → σ i < n)
    (hinj : ∀ i, i < n → ∀ j, j < n → σ i = σ j → i = j) :
    (List.range n).countP (fun i => g (σ i)) = (List.range n).countP g := by
  have hnd : ((List.range n).map σ).Nodup :=
    (List.nodup_range n).map_on (fun x hx y hy hxy =>
      hinj x (List.mem_range.mp hx) y (List.mem_range.mp hy) hxy)
  have hsub : (List.range n).map σ ⊆ List.range n := by
    intro x hx
    obtain ⟨i, hi, rfl⟩ := List.mem_map.mp hx
    exact List.mem_range.mpr (hσ i (List.mem_range.mp hi))
  have hperm : ((List.range n).map σ).Perm (List.range n) :=
    (List.subperm_of_subset hnd hsub).perm_of_length_le (by simp)
  rw [← hperm.countP_eq g, List.countP_map]
  rfl

theorem edgeCross_symm (pt vi vj : Point K) : edgeCross pt vi vj = edgeCross pt vj vi := by
  rw [edgeCross, edgeCross]
  by_cases hy : vi.y > pt.y ↔ vj.y > pt.y
  · have h1 : decide (vi.y > pt.y) = decide (vj.y > pt.y) := decide_eq_decide.mpr hy
    rw [h1, bne_self_eq_false, Bool.false_and, Bool.false_and]
  · have hne : vi.y ≠ vj.y := by
      intro he
      exact hy (by rw [he])
    have d1 : vj.y - vi.y ≠ 0 := sub_ne_zero.mpr (Ne.symm hne)
    have d2 : vi.y - vj.y ≠ 0 := sub_ne_zero.mpr hne
    have hint : (vj.x - vi.x) * (pt.y - vi.y) / (vj.y - vi.y) + vi.x
        = (vi.x - vj.x) * (pt.y - vj.y) / (vi.y - vj.y) + vj.x := by
      field_simp
      ring
    have hb : (decide (vi.y > pt.y) != decide (vj.y > pt.y))
        = (decide (vj.y > pt.y) != decide (vi.y > pt.y)) := by
      cases decide (vi.y > pt.y) <;> cases decide (vj.y > pt.y) <;> rfl
    rw [hint, hb]

theorem getD_reverse {l : List (Point K)} {i : ℕ} (hi : i < l.length) :
    l.reverse.getD i ⟨0, 0⟩ = l.getD (l.length - 1 - i) ⟨0, 0⟩ := by
  rw [List.getD_eq_getElem _ _ (by simpa using hi),
    List.getD_eq_getElem _ _ (by omega)]
  exact List.getElem_reverse ..

theorem ipp_rotate_one (pt : Point K) (poly : List (Point K)) :
    isPointInPolygon pt (poly.rotate 1) = isPointInPolygon pt poly := by
  rcases Nat.eq_zero_or_pos poly.length with h0 | hn
  · rw [List.length_eq_zero.mp h0]
    rfl
  · rw [ipp_parity, ipp_parity, List.length_rotate]
    have hprev : ∀ i, i < poly.length →
        ((i + 1) % poly.length + poly.length - 1) % poly.length = i := by
      intro i hi
      rw [show (i + 1) % poly.length + poly.length - 1
          = (i + 1) % poly.length + (poly.length - 1) from by omega]
      rw [Nat.mod_add_mod]
      rw [show i + 1 + (poly.length - 1) = i + poly.length from by omega]
      rw [Nat.add_mod_right]
      exact Nat.mod_eq_of_lt hi
    have key : ∀ i, i < poly.length →
        ippPred pt (poly.rotate 1) i
          = ippPred pt poly ((i + 1) % poly.length) := by
      intro i hi
      have hX : (poly.rotate 1).getD i ⟨0, 0⟩
          = poly.getD ((i + 1) % poly.length) ⟨0, 0⟩ := by
        rw [List.getD_eq_getElem _ _ (by simpa using hi),
          List.getD_eq_getElem _ _ (Nat.mod_lt _ hn)]
        exact List.getElem_rotate ..
      have hY : (poly.rotate 1).getD ((i + poly.length - 1) % poly.length) ⟨0, 0⟩
          = poly.getD i ⟨0, 0⟩ := by
        have hlt : (i + poly.length - 1) % poly.length < poly.length := Nat.mod_lt _ hn
        rw [List.getD_eq_getElem _ _ (by simpa using hlt),
          List.getD_eq_getElem _ _ hi]
        rw [List.getElem_rotate]
        congr 1
        rw [Nat.mod_add_mod]
        rw [show i + poly.length - 1 + 1 = i + poly.length from by omega]
        rw [Nat.add_mod_right]
        exact Nat.mod_eq_of_lt hi
      simp only [ippPred, List.length_rotate]
      rw [hX, hY, hprev i hi]
    have h1 : (List.range poly.length).countP (ippPred pt (poly.rotate 1))
        = (List.range poly.length).countP
            (fun i => ippPred pt poly ((i + 1) % poly.length)) :=
      List.countP_congr (fun i hi => by rw [key i (List.mem_range.mp hi)])
    have h2 : (List.range poly.length).countP
          (fun i => ippPred pt poly ((i + 1) % poly.length))
        = (List.range poly.length).countP (ippPred pt poly) := by
      refine countP_range_comp poly.length (fun i => (i + 1) % poly.length)
        (ippPred pt poly) (fun i _ => Nat.mod_lt _ hn) ?_
      intro i hi j hj hij
      have h3 := congrArg (fun m => (m + poly.length - 1) % poly.length) hij
      dsimp only at h3
      rw [hprev i hi, hprev j hj] at h3
      exact h3
    rw [h1, h2]

theorem ipp_rotate (pt : Point K) (poly : List (Point K)) :
    ∀ k : ℕ, isPointInPolygon pt (poly.rotate k) = isPointInPolygon pt poly
  | 0 => by rw [List.rotate_zero]
  | k + 1 => by
    rw [← List.rotate_rotate, ipp_rotate_one]
    exact ipp_rotate pt poly k

theorem ipp_reverse (pt : Point K) (poly : List (Point K)) :
    isPointInPolygon pt poly.reverse = isPointInPolygon pt poly := by
  rcases Nat.eq_zero_or_pos poly.length with h0 | hn
  · rw [List.length_eq_zero.mp h0]
    rfl
  · rw [ipp_parity, ipp_parity, List.length_reverse]
    have key : ∀ i, i < poly.length →
        ippPred pt poly.reverse i
          = ippPred pt poly ((poly.length - i) % poly.length) := by
      intro i hi
      simp only [ippPred, List.length_reverse]
      rcases Nat.eq_zero_or_pos i with rfl | hip
      · rw [show (poly.length - 0) % poly.length = 0 from by
          rw [Nat.sub_zero, Nat.mod_self]]
        rw [show (0 + poly.length - 1) % poly.length = poly.length - 1 from by
          rw [Nat.zero_add]
          exact Nat.mod_eq_of_lt (by omega)]
        rw [getD_reverse (by omega), getD_reverse (by omega)]
        rw [show poly.length - 1 - 0 = poly.length - 1 from by omega,
          show poly.length - 1 - (poly.length - 1) = 0 from by omega]
        exact edgeCross_symm pt _ _
      · rw [show (i + poly.length - 1) % poly.length = i - 1 from by
          rw [show i + poly.length - 1 = (i - 1) + poly.length from by omega,
            Nat.add_mod_right]
          exact Nat.mod_eq_of_lt (by omega)]
        rw [show (poly.length - i) % poly.length = poly.length - i from
          Nat.mod_eq_of_lt (by omega)]
        rw [show poly.length - i + poly.length - 1 =
          (poly.length - i - 1) + poly.length from by omega]
        rw [Nat.add_mod_right]
        rw [show (poly.length - i - 1) % poly.length = poly.length - i - 1 from
          Nat.mod_eq_of_lt (by omega)]
        rw [getD_reverse (by omega), getD_reverse (by omega)]
        rw [show poly.length - 1 - i = poly.length - i - 1 from by omega,
          show poly.length - 1 - (i - 1) = poly.length - i from by omega]
        exact edgeCross_symm pt _ _
    have h1 : (List.range poly.length).countP (ippPred pt poly.reverse)
        = (List.range poly.length).countP
            (fun i => ippPred pt poly ((poly.length - i) % poly.length)) :=
      List.countP_congr (fun i hi => by rw [key i (List.mem_range.mp hi)])
    have h2 : (List.range poly.length).countP
          (fun i => ippPred pt poly ((poly.length - i) % poly.length))
        = (List.range poly.length).countP (ippPred pt poly) := by
      refine countP_range_comp poly.length
        (fun i => (poly.length - i) % poly.length)
        (ippPred pt poly) (fun i _ => Nat.mod_lt _ hn) ?_
      intro i hi j hj hij
      dsimp only at hij
      rcases Nat.eq_zero_or_pos i with rfl | hip <;>
        rcases Nat.eq_zero_or_pos j with rfl | hjp
      · rfl
      · rw [Nat.sub_zero, Nat.mod_self, Nat.mod_eq_of_lt (by omega)] at hij
        omega
      · rw [Nat.mod_eq_of_lt (by omega), Nat.sub_zero, Nat.mod_self] at hij
        omega
      · rw [Nat.mod_eq_of_lt (by omega), Nat.mod_eq_of_lt (by omega)] at hij
        omega
    rw [h1, h2]

/-! Angle normalization machinery. -/

/-- The closed form of the `angleDiff` normalization loops lands in
`(-Math.PI, Math.PI]`. -/
theorem normalizeAngleDiff_mem (d : K) :
    -mathPI < normalizeAngleDiff d ∧ normalizeAngleDiff d ≤ mathPI := by
  have hpi : (0 : K) < mathPI := by
    rw [mathPI]
    norm_num
  have hle : (d - mathPI) / (2 * mathPI) ≤ (⌈(d - mathPI) / (2 * mathPI)⌉ : K) :=
    Int.le_ceil _
  have hlt : ((⌈(d - mathPI) / (2 * mathPI)⌉ : K)) < (d - mathPI) / (2 * mathPI) + 1 :=
    Int.ceil_lt_add_one _
  have key : (d - mathPI) / (2 * mathPI) * (2 * mathPI) = d - mathPI :=
    div_mul_cancel₀ _ (by linarith)
  have hu : d - mathPI ≤ (⌈(d - mathPI) / (2 * mathPI)⌉ : K) * (2 * mathPI) := by
    have h2 := mul_le_mul_of_nonneg_right hle (by linarith : (0 : K) ≤ 2 * mathPI)
    rwa [key] at h2
  have hl : (⌈(d - mathPI) / (2 * mathPI)⌉ : K) * (2 * mathPI) < d + mathPI := by
    have h2 := mul_lt_mul_of_pos_right hlt (by linarith : (0 : K) < 2 * mathPI)
    rw [add_mul, key, one_mul] at h2
    linarith
  rw [normalizeAngleDiff]
  constructor
  · nlinarith
  · nlinarith

/-- `Math.atan2` always lands in `(-π, π]`. -/
theorem atan2_mem_Ioc (y x : ℝ) : -Real.pi < atan2 y x ∧ atan2 y x ≤ Real.pi :=
  ⟨(Complex.arg_mem_Ioc ⟨x, y⟩).1, (Complex.arg_mem_Ioc ⟨x, y⟩).2⟩

/-! Seed-territory area machinery. -/

/-- `sin` is 1-Lipschitz. -/
theorem sin_lip (a b : ℝ) : |Real.sin a - Real.sin b| ≤ |a - b| := by
  rw [Real.sin_sub_sin, abs_mul, abs_mul]
  have h1 : |Real.sin ((a - b) / 2)| ≤ |(a - b) / 2| := Real.abs_sin_le_abs
  have h2 := Real.abs_cos_le_one ((a + b) / 2)
  rw [show |(2 : ℝ)| = 2 from by norm_num]
  calc 2 * |Real.sin ((a - b) / 2)| * |Real.cos ((a + b) / 2)|
      ≤ 2 * |(a - b) / 2| * 1 := by
        apply mul_le_mul ?_ h2 (abs_nonneg _) (by positivity)
        apply mul_le_mul_of_nonneg_left h1 (by norm_num)
    _ = |a - b| := by
        rw [abs_div, mul_one, show |(2 : ℝ)| = 2 from by norm_num]
        ring

/-- Rational two-sided bounds for square roots. -/
theorem sqrt_bounds {x a b : ℝ} (ha : 0 ≤ a) (hb : 0 ≤ b) (hx : 0 ≤ x)
    (h1 : a ^ 2 < x) (h2 : x < b ^ 2) : a < Real.sqrt x ∧ Real.sqrt x < b := by
  have hs := Real.sq_sqrt hx
  constructor
  · nlinarith [Real.sqrt_nonneg x]
  · nlinarith [Real.sqrt_nonneg x]

set_option maxRecDepth 100000 in
/-- The shoelace fold of the seed 32-gon, fully unrolled. -/
theorem seed_hexp : getSignedPolygonArea ((List.range 32).map seedVertex)
    = ((((((((((((((((((((((((((((((((0 + (seedVertex 0).x * (seedVertex 1).y - (seedVertex 1).x * (seedVertex 0).y) + (seedVertex 1).x * (seedVertex 2).y - (seedVertex 2).x * (seedVertex 1).y) + (seedVertex 2).x * (seedVertex 3).y - (seedVertex 3).x * (seedVertex 2).y) + (seedVertex 3).x * (seedVertex 4).y - (seedVertex 4).x * (seedVertex 3).y) + (seedVertex 4).x * (seedVertex 5).y - (seedVertex 5).x * (seedVertex 4).y) + (seedVertex 5).x * (seedVertex 6).y - (seedVertex 6).x * (seedVertex 5).y) + (seedVertex 6).x * (seedVertex 7).y - (seedVertex 7).x * (seedVertex 6).y) + (seedVertex 7).x * (seedVertex 8).y - (seedVertex 8).x * (seedVertex 7).y) + (seedVertex 8).x * (seedVertex 9).y - (seedVertex 9).x * (seedVertex 8).y) + (seedVertex 9).x * (seedVertex 10).y - (seedVertex 10).x * (seedVertex 9).y) + (seedVertex 10).x * (seedVertex 11).y - (seedVertex 11).x * (seedVertex 10).y) + (seedVertex 11).x * (seedVertex 12).y - (seedVertex 12).x * (seedVertex 11).y) + (seedVertex 12).x * (seedVertex 13).y - (seedVertex 13).x * (seedVertex 12).y) + (seedVertex 13).x * (seedVertex 14).y - (seedVertex 14).x * (seedVertex 13).y) + (seedVertex 14).x * (seedVertex 15).y - (seedVertex 15).x * (seedVertex 14).y) + (seedVertex 15).x * (seedVertex 16).y - (seedVertex 16).x * (seedVertex 15).y) + (seedVertex 16).x * (seedVertex 17).y - (seedVertex 17).x * (seedVertex 16).y) + (seedVertex 17).x * (seedVertex 18).y - (seedVertex 18).x * (seedVertex 17).y) + (seedVertex 18).x * (seedVertex 19).y - (seedVertex 19).x * (seedVertex 18).y) + (seedVertex 19).x * (seedVertex 20).y - (seedVertex 20).x * (seedVertex 19).y) + (seedVertex 20).x * (seedVertex 21).y - (seedVertex 21).x * (seedVertex 20).y) + (seedVertex 21).x * (seedVertex 22).y - (seedVertex 22).x * (seedVertex 21).y) + (seedVertex 22).x * (seedVertex 23).y - (seedVertex 23).x * (seedVertex 22).y) + (seedVertex 23).x * (seedVertex 24).y - (seedVertex 24).x * (seedVertex 23).y) + (seedVertex 24).x * (seedVertex 25).y - (seedVertex 25).x * (seedVertex 24).y) + (seedVertex 25).x * (seedVertex 26).y - (seedVertex 26).x * (seedVertex 25).y) + (seedVertex 26).x * (seedVertex 27).y - (seedVertex 27).x * (seedVertex 26).y) + (seedVertex 27).x * (seedVertex 28).y - (seedVertex 28).x * (seedVertex 27).y) + (seedVertex 28).x * (seedVertex 29).y - (seedVertex 29).x * (seedVertex 28).y) + (seedVertex 29).x * (seedVertex 30).y - (seedVertex 30).x * (seedVertex 29).y) + (seedVertex 30).x * (seedVertex 31).y - (seedVertex 31).x * (seedVertex 30).y) + (seedVertex 31).x * (seedVertex 0).y - (seedVertex 0).x * (seedVertex 31).y) / 2 := rfl

set_option maxHeartbeats 1000000 in
/-- The signed area of the seed 32-gon in closed trigonometric form:
the translation terms telescope away and each edge contributes the sine
of its central angle. -/
theorem seed_area : getSignedPolygonArea ((List.range 32).map seedVertex)
    = (155 : ℝ) ^ 2 / 2
      * (31 * Real.sin (mathPI / 16) - Real.sin (31 * (mathPI / 16))) := by
  rw [seed_hexp]
  dsimp only [seedVertex, STARTING_TERRITORY_SIZE]
  push_cast
  have hd0 : Real.sin (mathPI / 16)
      = Real.sin ((1 : ℝ) / 32 * mathPI * 2) * Real.cos ((0 : ℝ) / 32 * mathPI * 2)
        - Real.cos ((1 : ℝ) / 32 * mathPI * 2) * Real.sin ((0 : ℝ) / 32 * mathPI * 2) := by
    rw [show (mathPI / 16 : ℝ)
        = (1 : ℝ) / 32 * mathPI * 2 - (0 : ℝ) / 32 * mathPI * 2 from by ring]
    exact Real.sin_sub _ _
  have hd1 : Real.sin (mathPI / 16)
      = Real.sin ((2 : ℝ) / 32 * mathPI * 2) * Real.cos ((1 : ℝ) / 32 * mathPI * 2)
        - Real.cos ((2 : ℝ) / 32 * mathPI * 2) * Real.sin ((1 : ℝ) / 32 * mathPI * 2) := by
    rw [show (mathPI / 16 : ℝ)
        = (2 : ℝ) / 32 * mathPI * 2 - (1 : ℝ) / 32 * mathPI * 2 from by ring]
    exact Real.sin_sub _ _
  have hd2 : Real.sin (mathPI / 16)
      = Real.sin ((3 : ℝ) / 32 * mathPI * 2) * Real.cos ((2 : ℝ) / 32 * mathPI * 2)
        - Real.cos ((3 : ℝ) / 32 * mathPI * 2) * Real.sin ((2 : ℝ) / 32 * mathPI * 2) := by
    rw [show (mathPI / 16 : ℝ)
        = (3 : ℝ) / 32 * mathPI * 2 - (2 : ℝ) / 32 * mathPI * 2 from by ring]
    exact Real.sin_sub _ _
  have hd3 : Real.sin (mathPI / 16)
      = Real.sin ((4 : ℝ) / 32 * mathPI * 2) * Real.cos ((3 : ℝ) / 32 * mathPI * 2)
        - Real.cos ((4 : ℝ) / 32 * mathPI * 2) * Real.sin ((3 : ℝ) / 32 * mathPI * 2) := by
    rw [show (mathPI / 16 : ℝ)
        = (4 : ℝ) / 32 * mathPI * 2 - (3 : ℝ) / 32 * mathPI * 2 from by ring]
    exact Real.sin_sub _ _
  have hd4 : Real.sin (mathPI / 16)
      = Real.sin ((5 : ℝ) / 32 * mathPI * 2) * Real.cos ((4 : ℝ) / 32 * mathPI * 2)
        - Real.cos ((5 : ℝ) / 32 * mathPI * 2) * Real.sin ((4 : ℝ) / 32 * mathPI * 2) := by
    rw [show (mathPI / 16 : ℝ)
        = (5 : ℝ) / 32 * mathPI * 2 - (4 : ℝ) / 32 * mathPI * 2 from by ring]
    exact Real.sin_sub _ _
  have hd5 : Real.sin (mathPI / 16)
      = Real.sin ((6 : ℝ) / 32 * mathPI * 2) * Real.cos ((5 : ℝ) / 32 * mathPI * 2)
        - Real.cos ((6 : ℝ) / 32 * mathPI * 2) * Real.sin ((5 : ℝ) / 32 * mathPI * 2) := by
    rw [show (mathPI / 16 : ℝ)
        = (6 : ℝ) / 32 * mathPI * 2 - (5 : ℝ) / 32 * mathPI * 2 from by ring]
    exact Real.sin_sub _ _
  have hd6 : Real.sin (mathPI / 16)
      = Real.sin ((7 : ℝ) / 32 * mathPI * 2) * Real.cos ((6 : ℝ) / 32 * mathPI * 2)
        - Real.cos ((7 : ℝ) / 32 * mathPI * 2) * Real.sin ((6 : ℝ) / 32 * mathPI * 2) := by
    rw [show (mathPI / 16 : ℝ)
        = (7 : ℝ) / 32 * mathPI * 2 - (6 : ℝ) / 32 * mathPI * 2 from by ring]
    exact Real.sin_sub _ _
  have hd7 : Real.sin (mathPI / 16)
      = Real.sin ((8 : ℝ) / 32 * mathPI * 2) * Real.cos ((7 : ℝ) / 32 * mathPI * 2)
        - Real.cos ((8 : ℝ) / 32 * mathPI * 2) * Real.sin ((7 : ℝ) / 32 * mathPI * 2) := by
    rw [show (mathPI / 16 : ℝ)
        = (8 : ℝ) / 32 * mathPI * 2 - (7 : ℝ) / 32 * mathPI * 2 from by ring]
    exact Real.sin_sub _ _
  have hd8 : Real.sin (mathPI / 16)
      = Real.sin ((9 : ℝ) / 32 * mathPI * 2) * Real.cos ((8 : ℝ) / 32 * mathPI * 2)
        - Real.cos ((9 : ℝ) / 32 * mathPI * 2) * Real.sin ((8 : ℝ) / 32 * mathPI * 2) := by
    rw [show (mathPI / 16 : ℝ)
        = (9 : ℝ) / 32 * mathPI * 2 - (8 : ℝ) / 32 * mathPI * 2 from by ring]
    exact Real.sin_sub _ _
  have hd9 : Real.sin (mathPI / 16)
      = Real.sin ((10 : ℝ) / 32 * mathPI * 2) * Real.cos ((9 : ℝ) / 32 * mathPI * 2)
        - Real.cos ((10 : ℝ) / 32 * mathPI * 2) * Real.sin ((9 : ℝ) / 32 * mathPI * 2) := by
    rw [show (mathPI / 16 : ℝ)
        = (10 : ℝ) / 32 * mathPI * 2 - (9 : ℝ) / 32 * mathPI * 2 from by ring]
    exact Real.sin_sub _ _
  have hd10 : Real.sin (mathPI / 16)
      = Real.sin ((11 : ℝ) / 32 * mathPI * 2) * Real.cos ((10 : ℝ) / 32 * mathPI * 2)
        - Real.cos ((11 : ℝ) / 32 * mathPI * 2) * Real.sin ((10 : ℝ) / 32 * mathPI * 2) := by
    rw [show (mathPI / 16 : ℝ)
        = (11 : ℝ) / 32 * mathPI * 2 - (10 : ℝ) / 32 * mathPI * 2 from by ring]
    exact Real.sin_sub _ _
  have hd11 : Real.sin (mathPI / 16)
      = Real.sin ((12 : ℝ) / 32 * mathPI * 2) * Real.cos ((11 : ℝ) / 32 * mathPI * 2)
        - Real.cos ((12 : ℝ) / 32 * mathPI * 2) * Real.sin ((11 : ℝ) / 32 * mathPI * 2) := by
    rw [show (mathPI / 16 : ℝ)
        = (12 : ℝ) / 32 * mathPI * 2 - (11 : ℝ) / 32 * mathPI * 2 from by ring]
    exact Real.sin_sub _ _
  have hd12 : Real.sin (mathPI / 16)
      = Real.sin ((13 : ℝ) / 32 * mathPI * 2) * Real.cos ((12 : ℝ) / 32 * mathPI * 2)
        - Real.cos ((13 : ℝ) / 32 * mathPI * 2) * Real.sin ((12 : ℝ) / 32 * mathPI * 2) := by
    rw [show (mathPI / 16 : ℝ)
        = (13 : ℝ) / 32 * mathPI * 2 - (12 : ℝ) / 32 * mathPI * 2 from by ring]
    exact Real.sin_sub _ _
  have hd13 : Real.sin (mathPI / 16)
      = Real.sin ((14 : ℝ) / 32 * mathPI * 2) * Real.cos ((13 : ℝ) / 32 * mathPI * 2)
        - Real.cos ((14 : ℝ) / 32 * mathPI * 2) * Real.sin ((13 : ℝ) / 32 * mathPI * 2) := by
    rw [show (mathPI / 16 : ℝ)
        = (14 : ℝ) / 32 * mathPI * 2 - (13 : ℝ) / 32 * mathPI * 2 from by ring]
    exact Real.sin_sub _ _
  have hd14 : Real.sin (mathPI / 16)
      = Real.sin ((15 : ℝ) / 32 * mathPI * 2) * Real.cos ((14 : ℝ) / 32 * mathPI * 2)
        - Real.cos ((15 : ℝ) / 32 * mathPI * 2) * Real.sin ((14 : ℝ) / 32 * mathPI * 2) := by
    rw [show (mathPI / 16 : ℝ)
        = (15 : ℝ) / 32 * mathPI * 2 - (14 : ℝ) / 32 * mathPI * 2 from by ring]
    exact Real.sin_sub _ _
  have hd15 : Real.sin (mathPI / 16)
      = Real.sin ((16 : ℝ) / 32 * mathPI * 2) * Real.cos ((15 : ℝ) / 32 * mathPI * 2)
        - Real.cos ((16 : ℝ) / 32 * mathPI * 2) * Real.sin ((15 : ℝ) / 32 * mathPI * 2) := by
    rw [show (mathPI / 16 : ℝ)
        = (16 : ℝ) / 32 * mathPI * 2 - (15 : ℝ) / 32 * mathPI * 2 from by ring]
    exact Real.sin_sub _ _
  have hd16 : Real.sin (mathPI / 16)
      = Real.sin ((17 : ℝ) / 32 * mathPI * 2) * Real.cos ((16 : ℝ) / 32 * mathPI * 2)
        - Real.cos ((17 : ℝ) / 32 * mathPI * 2) * Real.sin ((16 : ℝ) / 32 * mathPI * 2) := by
    rw [show (mathPI / 16 : ℝ)
        = (17 : ℝ) / 32 * mathPI * 2 - (16 : ℝ) / 32 * mathPI * 2 from by ring]
    exact Real.sin_sub _ _
  have hd17 : Real.sin (mathPI / 16)
      = Real.sin ((18 : ℝ) / 32 * mathPI * 2) * Real.cos ((17 : ℝ) / 32 * mathPI * 2)
        - Real.cos ((18 : ℝ) / 32 * mathPI * 2) * Real.sin ((17 : ℝ) / 32 * mathPI * 2) := by
    rw [show (mathPI / 16 : ℝ)
        = (18 : ℝ) / 32 * mathPI * 2 - (17 : ℝ) / 32 * mathPI * 2 from by ring]
    exact Real.sin_sub _ _
  have hd18 : Real.sin (mathPI / 16)
      = Real.sin ((19 : ℝ) / 32 * mathPI * 2) * Real.cos ((18 : ℝ) / 32 * mathPI * 2)
        - Real.cos ((19 : ℝ) / 32 * mathPI * 2) * Real.sin ((18 : ℝ) / 32 * mathPI * 2) := by
    rw [show (mathPI / 16 : ℝ)
        = (19 : ℝ) / 32 * mathPI * 2 - (18 : ℝ) / 32 * mathPI * 2 from by ring]
    exact Real.sin_sub _ _
  have hd19 : Real.sin (mathPI / 16)
      = Real.sin ((20 : ℝ) / 32 * mathPI * 2) * Real.cos ((19 : ℝ) / 32 * mathPI * 2)
        - Real.cos ((20 : ℝ) / 32 * mathPI * 2) * Real.sin ((19 : ℝ) / 32 * mathPI * 2) := by
    rw [show (mathPI / 16 : ℝ)
        = (20 : ℝ) / 32 * mathPI * 2 - (19 : ℝ) / 32 * mathPI * 2 from by ring]
    exact Real.sin_sub _ _
  have hd20 : Real.sin (mathPI / 16)
      = Real.sin ((21 : ℝ) / 32 * mathPI * 2) * Real.cos ((20 : ℝ) / 32 * mathPI * 2)
        - Real.cos ((21 : ℝ) / 32 * mathPI * 2) * Real.sin ((20 : ℝ) / 32 * mathPI * 2) := by
    rw [show (mathPI / 16 : ℝ)
        = (21 : ℝ) / 32 * mathPI * 2 - (20 : ℝ) / 32 * mathPI * 2 from by ring]
    exact Real.sin_sub _ _
  have hd21 : Real.sin (mathPI / 16)
      = Real.sin ((22 : ℝ) / 32 * mathPI * 2) * Real.cos ((21 : ℝ) / 32 * mathPI * 2)
        - Real.cos ((22 : ℝ) / 32 * mathPI * 2) * Real.sin ((21 : ℝ) / 32 * mathPI * 2) := by
    rw [show (mathPI / 16 : ℝ)
        = (22 : ℝ) / 32 * mathPI * 2 - (21 : ℝ) / 32 * mathPI * 2 from by ring]
    exact Real.sin_sub _ _
  have hd22 : Real.sin (mathPI / 16)
      = Real.sin ((23 : ℝ) / 32 * mathPI * 2) * Real.cos ((22 : ℝ) / 32 * mathPI * 2)
        - Real.cos ((23 : ℝ) / 32 * mathPI * 2) * Real.sin ((22 : ℝ) / 32 * mathPI * 2) := by
    rw [show (mathPI / 16 : ℝ)
        = (23 : ℝ) / 32 * mathPI * 2 - (22 : ℝ) / 32 * mathPI * 2 from by ring]
    exact Real.sin_sub _ _
  have hd23 : Real.sin (mathPI / 16)
      = Real.sin ((24 : ℝ) / 32 * mathPI * 2) * Real.cos ((23 : ℝ) / 32 * mathPI * 2)
        - Real.cos ((24 : ℝ) / 32 * mathPI * 2) * Real.sin ((23 : ℝ) / 32 * mathPI * 2) := by
    rw [show (mathPI / 16 : ℝ)
        = (24 : ℝ) / 32 * mathPI * 2 - (23 : ℝ) / 32 * mathPI * 2 from by ring]
    exact Real.sin_sub _ _
  have hd24 : Real.sin (mathPI / 16)
      = Real.sin ((25 : ℝ) / 32 * mathPI * 2) * Real.cos ((24 : ℝ) / 32 * mathPI * 2)
        - Real.cos ((25 : ℝ) / 32 * mathPI * 2) * Real.sin ((24 : ℝ) / 32 * mathPI * 2) := by
    rw [show (mathPI / 16 : ℝ)
        = (25 : ℝ) / 32 * mathPI * 2 - (24 : ℝ) / 32 * mathPI * 2 from by ring]
    exact Real.sin_sub _ _
  have hd25 : Real.sin (mathPI / 16)
      = Real.sin ((26 : ℝ) / 32 * mathPI * 2) * Real.cos ((25 : ℝ) / 32 * mathPI * 2)
        - Real.cos ((26 : ℝ) / 32 * mathPI * 2) * Real.sin ((25 : ℝ) / 32 * mathPI * 2) := by
    rw [show (mathPI / 16 : ℝ)
        = (26 : ℝ) / 32 * mathPI * 2 - (25 : ℝ) / 32 * mathPI * 2 from by ring]
    exact Real.sin_sub _ _
  have hd26 : Real.sin (mathPI / 16)
      = Real.sin ((27 : ℝ) / 32 * mathPI * 2) * Real.cos ((26 : ℝ) / 32 * mathPI * 2)
        - Real.cos ((27 : ℝ) / 32 * mathPI * 2) * Real.sin ((26 : ℝ) / 32 * mathPI * 2) := by
    rw [show (mathPI / 16 : ℝ)
        = (27 : ℝ) / 32 * mathPI * 2 - (26 : ℝ) / 32 * mathPI * 2 from by ring]
    exact Real.sin_sub _ _
  have hd27 : Real.sin (mathPI / 16)
      = Real.sin ((28 : ℝ) / 32 * mathPI * 2) * Real.cos ((27 : ℝ) / 32 * mathPI * 2)
        - Real.cos ((28 : ℝ) / 32 * mathPI * 2) * Real.sin ((27 : ℝ) / 32 * mathPI * 2) := by
    rw [show (mathPI / 16 : ℝ)
        = (28 : ℝ) / 32 * mathPI * 2 - (27 : ℝ) / 32 * mathPI * 2 from by ring]
    exact Real.sin_sub _ _
  have hd28 : Real.sin (mathPI / 16)
      = Real.sin ((29 : ℝ) / 32 * mathPI * 2) * Real.cos ((28 : ℝ) / 32 * mathPI * 2)
        - Real.cos ((29 : ℝ) / 32 * mathPI * 2) * Real.sin ((28 : ℝ) / 32 * mathPI * 2) := by
    rw [show (mathPI / 16 : ℝ)
        = (29 : ℝ) / 32 * mathPI * 2 - (28 : ℝ) / 32 * mathPI * 2 from by ring]
    exact Real.sin_sub _ _
  have hd29 : Real.sin (mathPI / 16)
      = Real.sin ((30 : ℝ) / 32 * mathPI * 2) * Real.cos ((29 : ℝ) / 32 * mathPI * 2)
        - Real.cos ((30 : ℝ) / 32 * mathPI * 2) * Real.sin ((29 : ℝ) / 32 * mathPI * 2) := by
    rw [show (mathPI / 16 : ℝ)
        = (30 : ℝ) / 32 * mathPI * 2 - (29 : ℝ) / 32 * mathPI * 2 from by ring]
    exact Real.sin_sub _ _
  have hd30 : Real.sin (mathPI / 16)
      = Real.sin ((31 : ℝ) / 32 * mathPI * 2) * Real.cos ((30 : ℝ) / 32 * mathPI * 2)
        - Real.cos ((31 : ℝ) / 32 * mathPI * 2) * Real.sin ((30 : ℝ) / 32 * mathPI * 2) := by
    rw [show (mathPI / 16 : ℝ)
        = (31 : ℝ) / 32 * mathPI * 2 - (30 : ℝ) / 32 * mathPI * 2 from by ring]
    exact Real.sin_sub _ _
  have hd31 : -Real.sin (31 * (mathPI / 16))
      = Real.sin ((0 : ℝ) / 32 * mathPI * 2) * Real.cos ((31 : ℝ) / 32 * mathPI * 2)
        - Real.cos ((0 : ℝ) / 32 * mathPI * 2) * Real.sin ((31 : ℝ) / 32 * mathPI * 2) := by
    have h := Real.sin_sub ((0 : ℝ) / 32 * mathPI * 2) ((31 : ℝ) / 32 * mathPI * 2)
    rw [show (0 : ℝ) / 32 * mathPI * 2 - (31 : ℝ) / 32 * mathPI * 2
        = -(31 * (mathPI / 16)) from by ring, Real.sin_neg] at h
    exact h
  linear_combination - ((155 : ℝ) ^ 2 / 2) * hd0 - ((155 : ℝ) ^ 2 / 2) * hd1 - ((155 : ℝ) ^ 2 / 2) * hd2 - ((155 : ℝ) ^ 2 / 2) * hd3 - ((155 : ℝ) ^ 2 / 2) * hd4 - ((155 : ℝ) ^ 2 / 2) * hd5 - ((155 : ℝ) ^ 2 / 2) * hd6 - ((155 : ℝ) ^ 2 / 2) * hd7 - ((155 : ℝ) ^ 2 / 2) * hd8 - ((155 : ℝ) ^ 2 / 2) * hd9 - ((155 : ℝ) ^ 2 / 2) * hd10 - ((155 : ℝ) ^ 2 / 2) * hd11 - ((155 : ℝ) ^ 2 / 2) * hd12 - ((155 : ℝ) ^ 2 / 2) * hd13 - ((155 : ℝ) ^ 2 / 2) * hd14 - ((155 : ℝ) ^ 2 / 2) * hd15 - ((155 : ℝ) ^ 2 / 2) * hd16 - ((155 : ℝ) ^ 2 / 2) * hd17 - ((155 : ℝ) ^ 2 / 2) * hd18 - ((155 : ℝ) ^ 2 / 2) * hd19 - ((155 : ℝ) ^ 2 / 2) * hd20 - ((155 : ℝ) ^ 2 / 2) * hd21 - ((155 : ℝ) ^ 2 / 2) * hd22 - ((155 : ℝ) ^ 2 / 2) * hd23 - ((155 : ℝ) ^ 2 / 2) * hd24 - ((155 : ℝ) ^ 2 / 2) * hd25 - ((155 : ℝ) ^ 2 / 2) * hd26 - ((155 : ℝ) ^ 2 / 2) * hd27 - ((155 : ℝ) ^ 2 / 2) * hd28 - ((155 : ℝ) ^ 2 / 2) * hd29 - ((155 : ℝ) ^ 2 / 2) * hd30 - ((155 : ℝ) ^ 2 / 2) * hd31

/-- The seed score: `⌊area of the 32-gon⌋ = 74992`. -/
theorem createPlayer_score (id color : String) :
    (createPlayerR id 2500 2500 color).score = 74992 := by
  have hsc : (createPlayerR id 2500 2500 color).score
      = ⌊getPolygonArea ((List.range 32).map seedVertex)⌋ := rfl
  have hπ1 : (3.14159265358979323846 : ℝ) < Real.pi := Real.pi_gt_d20
  have hπ2 : Real.pi < 3.14159265358979323847 := Real.pi_lt_d20
  have hm1 : (3.14159265358979311599 : ℝ) < mathPI := by
    rw [mathPI]
    norm_num
  have hm2 : (mathPI : ℝ) < 3.141592653589793116 := by
    rw [mathPI]
    norm_num
  have hgap : Real.pi / 16 - mathPI / 16 < 1e-17 := by linarith
  have hgap0 : 0 < Real.pi / 16 - mathPI / 16 := by linarith
  have h2b : (1.41421356237 : ℝ) < Real.sqrt 2 ∧ Real.sqrt 2 < 1.41421356238 :=
    sqrt_bounds (by norm_num) (by norm_num) (by norm_num) (by norm_num) (by norm_num)
  have hsb : (1.84775906502 : ℝ) < Real.sqrt (2 + Real.sqrt 2)
      ∧ Real.sqrt (2 + Real.sqrt 2) < 1.84775906503 :=
    sqrt_bounds (by norm_num) (by norm_num) (by positivity) (by nlinarith [h2b.1])
      (by nlinarith [h2b.2])
  have htb : (0.390180644022 : ℝ) < Real.sqrt (2 - Real.sqrt (2 + Real.sqrt 2))
      ∧ Real.sqrt (2 - Real.sqrt (2 + Real.sqrt 2)) < 0.390180644042 :=
    sqrt_bounds (by norm_num) (by norm_num) (by nlinarith [hsb.2]) (by nlinarith [hsb.2])
      (by nlinarith [hsb.1])
  have hsin : Real.sin (Real.pi / 16)
      = Real.sqrt (2 - Real.sqrt (2 + Real.sqrt 2)) / 2 := Real.sin_pi_div_sixteen
  have h31 : Real.sin (31 * (Real.pi / 16)) = -Real.sin (Real.pi / 16) := by
    rw [show 31 * (Real.pi / 16) = 2 * Real.pi - Real.pi / 16 from by ring]
    exact Real.sin_two_pi_sub _
  have hb1 : |Real.sin (mathPI / 16) - Real.sin (Real.pi / 16)| < 1e-17 := by
    refine lt_of_le_of_lt (sin_lip _ _) ?_
    rw [abs_sub_comm, abs_of_pos hgap0]
    exact hgap
  have hb2 : |Real.sin (31 * (mathPI / 16)) - Real.sin (31 * (Real.pi / 16))| < 3.2e-16 := by
    refine lt_of_le_of_lt (sin_lip _ _) ?_
    rw [show 31 * (mathPI / 16) - 31 * (Real.pi / 16)
        = -(31 * (Real.pi / 16 - mathPI / 16)) from by ring]
    rw [abs_neg, abs_of_pos (by linarith)]
    linarith
  rw [hsin] at hb1
  rw [h31, hsin] at hb2
  rw [abs_sub_lt_iff] at hb1 hb2
  have hlow : (74992 : ℝ) ≤ (155 : ℝ) ^ 2 / 2
      * (31 * Real.sin (mathPI / 16) - Real.sin (31 * (mathPI / 16))) := by
    nlinarith [hb1.2, hb2.1, htb.1]
  have hhigh : (155 : ℝ) ^ 2 / 2
      * (31 * Real.sin (mathPI / 16) - Real.sin (31 * (mathPI / 16))) < 74993 := by
    nlinarith [hb1.1, hb2.2, htb.2]
  rw [hsc]
  rw [show getPolygonArea ((List.range 32).map seedVertex)
      = |getSignedPolygonArea ((List.range 32).map seedVertex)| from rfl]
  rw [seed_area, abs_of_nonneg (by linarith)]
  rw [Int.floor_eq_iff]
  constructor
  · push_cast
    linarith
  · push_cast
    linarith

/-! The claims. -/

/-- C3: for a live player who is outside, not inside their territory, with
a defined exit point and more than 10 trail points, when the head comes
within 80 units of the exit point the tick attempts a capture with entry
point and edge equal to the exit point and edge, commits it only under
strict area growth, and clears the trail state whether or not the commit
succeeds. -/
theorem C3_loop_closure {h : SpatialHash K} {st : List (Player K)} {k : ℕ}
    {p : Player K} {e : Point K}
    (hk : st[k]? = some p) (hdead : p.isDead = false) (hout : p.isOutside = true)
    (hin : isPointInPolygon ⟨p.x, p.y⟩ p.territory = false)
    (hex : p.exitPoint = some e) (hlen : p.trail.length > 10)
    (hdist : (p.x - e.x) ^ 2 + (p.y - e.y) ^ 2 < 6400)
    (hsc : (p.score : K) < winThreshold) :
    ∀ q, (processPlayer h st k)[k]? = some q →
      (q.trail = [] ∧ q.isOutside = false ∧ q.exitPoint = none) ∧
      (q.territory = p.territory ∧ q.score = p.score ∨
        q.territory = loopNewTerritory p.territory p.trail e p.exitEdgeIndex ∧
          q.score = ⌊calculateArea (loopNewTerritory p.territory p.trail e p.exitEdgeIndex)⌋ ∧
          q.score > p.score) := by
  intro q hq
  obtain ⟨hlt, -⟩ := List.getElem?_eq_some_iff.mp hk
  rw [processPlayer_loopClosure hk hdead hout hin hex hlen hdist hsc,
    List.getElem?_set_self (by simpa using hlt)] at hq
  obtain rfl := (Option.some.injEq _ _).mp hq.symm
  by_cases hc : (loopNewTerritory p.territory p.trail e p.exitEdgeIndex).length > 3 ∧
      ⌊calculateArea (loopNewTerritory p.territory p.trail e p.exitEdgeIndex)⌋ > p.score
  · rw [if_pos hc]
    exact ⟨⟨rfl, rfl, rfl⟩, Or.inr ⟨rfl, rfl, hc.2⟩⟩
  · rw [if_neg hc]
    exact ⟨⟨rfl, rfl, rfl⟩, Or.inl ⟨rfl, rfl⟩⟩

set_option maxRecDepth 100000 in
/-- C3 witness: the loop-closure scenario `loopPlayer` commits and clears
its trail state. -/
theorem C3_witness :
    ((processPlayer (buildHash [loopPlayer]) [loopPlayer] 0).getD 0 loopPlayer).trail = [] ∧
    ((processPlayer (buildHash [loopPlayer]) [loopPlayer] 0).getD 0 loopPlayer).isOutside = false ∧
    ((processPlayer (buildHash [loopPlayer]) [loopPlayer] 0).getD 0 loopPlayer).exitPoint = none :=
  (C3_loop_closure (h := buildHash [loopPlayer]) (k := 0)
    (p := loopPlayer) (e := ⟨50, 0⟩)
    (show ([loopPlayer] : List (Player ℚ))[0]? = some loopPlayer from rfl)
    rfl rfl (by with_unfolding_all rfl) rfl
    (by decide) (by with_unfolding_all decide) (by with_unfolding_all decide)
    ((processPlayer (buildHash [loopPlayer]) [loopPlayer] 0).getD 0 loopPlayer)
    (by with_unfolding_all rfl)).1

/-- C5: under the entry preconditions, an invalid capture candidate (fewer
than 4 vertices or area not above 100; `NaN`/`∞` cannot arise in exact
arithmetic) is rejected with territory and score preserved; the trail
state is cleared in both cases; a valid candidate is committed with
`score = ⌊area⌋`, `territoryChanged = true` and a 0.5 s grace period. -/
theorem C5_entry_validation {h : SpatialHash K} {st : List (Player K)} {k : ℕ}
    {p : Player K} {e : Point K}
    (hk : st[k]? = some p) (hdead : p.isDead = false) (hout : p.isOutside = true)
    (hin : isPointInPolygon ⟨p.x, p.y⟩ p.territory = true)
    (hex : p.exitPoint = some e) (hlen : p.trail.length > 2)
    (hsc : (p.score : K) < winThreshold) :
    ∀ q, (processPlayer h st k)[k]? = some q →
      (q.trail = [] ∧ q.isOutside = false ∧ q.exitPoint = none) ∧
      (¬((entryCandidate p e).length > 3 ∧ ⌊calculateArea (entryCandidate p e)⌋ > 100) →
        q.territory = p.territory ∧ q.score = p.score) ∧
      ((entryCandidate p e).length > 3 ∧ ⌊calculateArea (entryCandidate p e)⌋ > 100 →
        q.territory = entryCandidate p e ∧ q.score = ⌊calculateArea (entryCandidate p e)⌋ ∧
          q.territoryChanged = true ∧ q.invulnerableTimer = 1 / 2) := by
  intro q hq
  obtain ⟨hlt, -⟩ := List.getElem?_eq_some_iff.mp hk
  rw [processPlayer_entry hk hdead hout hin hex hlen hsc,
    List.getElem?_set_self (by simpa using hlt)] at hq
  have hfold : entryNewTerritory p.territory p.trail e p.exitEdgeIndex
      (entryHit ⟨jsOrElse p.prevX p.x, jsOrElse p.prevY p.y⟩ ⟨p.x, p.y⟩ p.territory).point
      (entryHit ⟨jsOrElse p.prevX p.x, jsOrElse p.prevY p.y⟩ ⟨p.x, p.y⟩ p.territory).edgeIndex
      = entryCandidate p e := rfl
  rw [hfold] at hq
  obtain rfl := (Option.some.injEq _ _).mp hq.symm
  by_cases hc : (entryCandidate p e).length > 3 ∧ ⌊calculateArea (entryCandidate p e)⌋ > 100
  · rw [if_pos hc]
    exact ⟨⟨rfl, rfl, rfl⟩, fun hn => absurd hc hn, fun _ => ⟨rfl, rfl, rfl, rfl⟩⟩
  · rw [if_neg hc]
    exact ⟨⟨rfl, rfl, rfl⟩, fun _ => ⟨rfl, rfl⟩, fun hcc => absurd hcc hc⟩

set_option maxRecDepth 100000 in
/-- C5 witness: the entry scenario `entryPlayer` runs the pipeline and
clears its trail state. -/
theorem C5_witness :
    ((processPlayer (buildHash [entryPlayer]) [entryPlayer] 0).getD 0 entryPlayer).trail = [] ∧
    ((processPlayer (buildHash [entryPlayer]) [entryPlayer] 0).getD 0 entryPlayer).isOutside
      = false ∧
    ((processPlayer (buildHash [entryPlayer]) [entryPlayer] 0).getD 0 entryPlayer).exitPoint
      = none :=
  (C5_entry_validation (h := buildHash [entryPlayer]) (k := 0)
    (p := entryPlayer) (e := ⟨50, 0⟩)
    (show ([entryPlayer] : List (Player ℚ))[0]? = some entryPlayer from rfl)
    rfl rfl (by with_unfolding_all rfl) rfl
    (by decide) (by with_unfolding_all decide)
    ((processPlayer (buildHash [entryPlayer]) [entryPlayer] 0).getD 0 entryPlayer)
    (by with_unfolding_all rfl)).1

/-- C1 (amended): when a loop-closure commit succeeds the score strictly
grows, and when it does not commit the score is unchanged; an entry-based
commit only guarantees the committed area exceeds 100 — it does not
guarantee growth (see the counterexample). -/
theorem C1_capture_growth :
    (∀ (h : SpatialHash K) (st : List (Player K)) (k : ℕ) (p : Player K) (e : Point K),
      st[k]? = some p → p.isDead = false → p.isOutside = true →
      isPointInPolygon ⟨p.x, p.y⟩ p.territory = false →
      p.exitPoint = some e → p.trail.length > 10 →
      (p.x - e.x) ^ 2 + (p.y - e.y) ^ 2 < 6400 → (p.score : K) < winThreshold →
      p.territoryChanged = false →
      ∀ q, (processPlayer h st k)[k]? = some q →
        p.score ≤ q.score ∧ (q.territoryChanged = true → p.score < q.score)) ∧
    (∀ (h : SpatialHash K) (st : List (Player K)) (k : ℕ) (p : Player K) (e : Point K),
      st[k]? = some p → p.isDead = false → p.isOutside = true →
      isPointInPolygon ⟨p.x, p.y⟩ p.territory = true →
      p.exitPoint = some e → p.trail.length > 2 → (p.score : K) < winThreshold →
      p.territoryChanged = false →
      ∀ q, (processPlayer h st k)[k]? = some q →
        (q.territoryChanged = true → 100 < q.score)) := by
  constructor
  · intro h st k p e hk hdead hout hin hex hlen hdist hsc hch q hq
    obtain ⟨hlt, -⟩ := List.getElem?_eq_some_iff.mp hk
    rw [processPlayer_loopClosure hk hdead hout hin hex hlen hdist hsc,
      List.getElem?_set_self (by simpa using hlt)] at hq
    obtain rfl := (Option.some.injEq _ _).mp hq.symm
    by_cases hc : (loopNewTerritory p.territory p.trail e p.exitEdgeIndex).length > 3 ∧
        ⌊calculateArea (loopNewTerritory p.territory p.trail e p.exitEdgeIndex)⌋ > p.score
    · rw [if_pos hc]
      exact ⟨hc.2.le, fun _ => hc.2⟩
    · rw [if_neg hc]
      exact ⟨le_refl _, fun hcon => absurd (hch ▸ hcon) (by simp)⟩
  · intro h st k p e hk hdead hout hin hex hlen hsc hch q hq
    obtain ⟨hlt, -⟩ := List.getElem?_eq_some_iff.mp hk
    rw [processPlayer_entry hk hdead hout hin hex hlen hsc,
      List.getElem?_set_self (by simpa using hlt)] at hq
    have hfold : entryNewTerritory p.territory p.trail e p.exitEdgeIndex
        (entryHit ⟨jsOrElse p.prevX p.x, jsOrElse p.prevY p.y⟩ ⟨p.x, p.y⟩ p.territory).point
        (entryHit ⟨jsOrElse p.prevX p.x, jsOrElse p.prevY p.y⟩ ⟨p.x, p.y⟩ p.territory).edgeIndex
        = entryCandidate p e := rfl
    rw [hfold] at hq
    obtain rfl := (Option.some.injEq _ _).mp hq.symm
    by_cases hc : (entryCandidate p e).length > 3 ∧ ⌊calculateArea (entryCandidate p e)⌋ > 100
    · rw [if_pos hc]
      exact fun _ => hc.2
    · rw [if_neg hc]
      exact fun hcon => absurd (hch ▸ hcon) (by simp)

set_option maxRecDepth 100000 in
/-- C1 counterexample: the entry scenario `shrinkPlayer` satisfies all the
entry preconditions, the commit succeeds (`territoryChanged` is set), yet
the new score 8160 is strictly below the old score 10000 — refuting
`Area(new) ≥ Area(old)` for entry-based captures. -/
theorem C1_counterexample :
    shrinkPlayer.isOutside = true ∧
    isPointInPolygon ⟨shrinkPlayer.x, shrinkPlayer.y⟩ shrinkPlayer.territory = true ∧
    shrinkPlayer.trail.length > 2 ∧
    ((processPlayer (buildHash [shrinkPlayer]) [shrinkPlayer] 0).getD 0
      shrinkPlayer).territoryChanged = true ∧
    ((processPlayer (buildHash [shrinkPlayer]) [shrinkPlayer] 0).getD 0
      shrinkPlayer).score < shrinkPlayer.score := by
  refine ⟨rfl, by with_unfolding_all rfl, by decide, ?_, ?_⟩
  · with_unfolding_all decide
  · with_unfolding_all decide

set_option maxRecDepth 100000 in
/-- C1 witness: the loop-closure scenario grows strictly, and the entry
scenario's committed score exceeds 100. -/
theorem C1_witness :
    loopPlayer.score ≤
      ((processPlayer (buildHash [loopPlayer]) [loopPlayer] 0).getD 0 loopPlayer).score ∧
    (100 : ℤ) <
      ((processPlayer (buildHash [entryPlayer]) [entryPlayer] 0).getD 0 entryPlayer).score := by
  constructor
  · exact ((C1_capture_growth (K := ℚ)).1 (buildHash [loopPlayer]) [loopPlayer] 0 loopPlayer
      ⟨50, 0⟩ rfl rfl rfl (by with_unfolding_all rfl) rfl (by decide)
      (by with_unfolding_all decide) (by with_unfolding_all decide) rfl
      ((processPlayer (buildHash [loopPlayer]) [loopPlayer] 0).getD 0 loopPlayer)
      (by with_unfolding_all rfl)).1
  · exact (C1_capture_growth (K := ℚ)).2 (buildHash [entryPlayer]) [entryPlayer] 0 entryPlayer
      ⟨50, 0⟩ rfl rfl rfl (by with_unfolding_all rfl) rfl (by decide)
      (by with_unfolding_all decide) rfl
      ((processPlayer (buildHash [entryPlayer]) [entryPlayer] 0).getD 0 entryPlayer)
      (by with_unfolding_all rfl) (by with_unfolding_all decide)

/-- C2 (amended): the victory threshold uses the clamped radius
`worldRadius = WORLD_WIDTH/2 - 1 = 2499`, not 2500.  A live player inside
their territory with a clean trail state whose score is at or above that
threshold has `hasWon` latched, `isOutside` forced false, the trail kept
clear, and the whole collision phase skipped — the state changes in no
other way. -/
theorem C2_victory_latch {h : SpatialHash K} {st : List (Player K)} {k : ℕ}
    {p : Player K}
    (hk : st[k]? = some p) (hdead : p.isDead = false) (hout : p.isOutside = false)
    (htr : p.trail = []) (hep : p.exitPoint = none) (hei : p.exitEdgeIndex = -1)
    (hsc : (p.score : K) ≥ winThreshold) :
    processPlayer h st k = st.set k { p with hasWon := true } :=
  processPlayer_victory hk hdead hout htr hep hei hsc

set_option maxRecDepth 100000 in
/-- C2 counterexample: score 19430000 is strictly below the claimed
threshold `0.99·π·2500²`, yet the code latches `hasWon` — the code's
threshold uses radius 2499. -/
theorem C2_counterexample :
    ((19430000 : ℝ) < (99 / 100) * Real.pi * 2500 ^ 2) ∧
    (winThreshold (K := ℚ) ≤ (19430000 : ℚ)) ∧
    ((processPlayer (buildHash [winPlayer]) [winPlayer] 0).getD 0 winPlayer).hasWon
      = true := by
  refine ⟨by nlinarith [Real.pi_gt_d6], ?_, ?_⟩
  · with_unfolding_all decide
  · with_unfolding_all decide

set_option maxRecDepth 100000 in
/-- C2 witness: the concrete winner scenario reduces to the pure latch. -/
theorem C2_witness :
    processPlayer (buildHash [winPlayer]) [winPlayer] 0
      = [{ winPlayer with hasWon := true }] := by
  rw [C2_victory_latch (h := buildHash [winPlayer]) (k := 0) (p := winPlayer)
    (show ([winPlayer] : List (Player ℚ))[0]? = some winPlayer from rfl)
    rfl rfl rfl rfl rfl (by with_unfolding_all decide)]
  rfl

/-- C4: when a live outside mover (away from its territory, trail too
short for loop closure, below the win threshold, owning none of the
queried trail items) runs its collision pass over a player list with
distinct ids, then (i) for every *queried* trail item of another player
crossed by the mover's movement segment, the item's owner — if currently
outside — is killed, with no break, so several owners can die in one pass;
(ii) the mover itself survives unchanged; and (iii) any player killed by
the pass owns a trail item of the query — crossing foreign territory items
never kills.  The kill is conditional on the crossed segment being
returned by the 3×3 spatial-hash query and on the victim being outside,
which the claim does not require. -/
theorem C4_foreign_trail_kill {h : SpatialHash K} {st : List (Player K)} {k : ℕ}
    {p : Player K}
    (hk : st[k]? = some p) (hdead : p.isDead = false) (hout : p.isOutside = true)
    (hin : isPointInPolygon ⟨p.x, p.y⟩ p.territory = false)
    (hnl : ¬p.trail.length > 10) (hsc : (p.score : K) < winThreshold)
    (hnodup : (st.map Player.id).Nodup)
    (hnoself : ∀ it ∈ hashQuery h p.x p.y, ¬(it.playerId = p.id ∧ it.type = "trail")) :
    (∀ item ∈ hashQuery h p.x p.y, item.type = "trail" → item.playerId ≠ p.id →
      segmentsIntersect ⟨jsOrElse p.prevX p.x, jsOrElse p.prevY p.y⟩ ⟨p.x, p.y⟩
        item.p1 item.p2 = true →
      ∀ (v : ℕ) (pv : Player K), st[v]? = some pv → pv.id = item.playerId →
        pv.isOutside = true →
        ∃ qv, (processPlayer h st k)[v]? = some qv ∧ qv.isDead = true) ∧
    ((processPlayer h st k)[k]? = some p) ∧
    (∀ (j : ℕ) (pj qj : Player K), st[j]? = some pj → pj.isDead = false →
      (processPlayer h st k)[j]? = some qj → qj.isDead = true →
      ∃ item ∈ hashQuery h p.x p.y, item.type = "trail" ∧ item.playerId = pj.id) := by
  have hred := processPlayer_collide (h := h) hk hdead hout hin hnl hsc
  obtain ⟨hklt, -⟩ := List.getElem?_eq_some_iff.mp hk
  have hsetk : (st.set k p)[k]? = some p := List.getElem?_set_self hklt
  refine ⟨?_, ?_, ?_⟩
  · intro item hm htr hne hx v pv hv hvid hvout
    have hvk : v ≠ k := by
      intro hc
      subst hc
      have hpv : pv = p := by
        rw [hv] at hk
        exact (Option.some.injEq _ _).mp hk
      subst hpv
      exact hne (hvid.symm)
    have hvset : (st.set k p)[v]? = some pv := by
      rw [List.getElem?_set_ne (fun hc => hvk hc.symm)]
      exact hv
    have hfind : st.findIdx? (fun q => q.id = item.playerId) = some v := by
      have hfi := findIdx?_of_nodup_ids hnodup hv
      rw [hvid] at hfi
      exact hfi
    have hfind' : (st.set k p).findIdx? (fun q => q.id = item.playerId) = some v :=
      (findIdx?_congr_ids 0 (ids_set_self hk)).trans hfind
    rw [hred]
    exact collisionLoop_kills _ _ hnoself hm hne htr hx ⟨pv, hvset, hvout, hvid, hfind'⟩
  · rw [hred]
    exact collisionLoop_no_kill _ _ hsetk (fun _ => rfl)
      (fun it hm htr heq => hnoself it hm ⟨heq, htr⟩)
  · intro j pj qj hj hpjd hqj hqjd
    by_contra hcon
    simp only [not_exists, not_and] at hcon
    rw [hred] at hqj
    by_cases hjk : j = k
    · have hpj : pj = p := by
        rw [hjk] at hj
        rw [hj] at hk
        exact (Option.some.injEq _ _).mp hk
      rw [hjk] at hqj
      rw [collisionLoop_no_kill (hashQuery h p.x p.y) (st.set k p) hsetk
        (fun _ => rfl)
        (fun it hm htr heq => hcon it hm htr (by rw [hpj]; exact heq))] at hqj
      obtain rfl := (Option.some.injEq _ _).mp hqj
      rw [← hpj, hpjd] at hqjd
      simp at hqjd
    · have hjset : (st.set k p)[j]? = some pj := by
        rw [List.getElem?_set_ne (fun hc => hjk hc.symm)]
        exact hj
      rw [collisionLoop_no_kill (hashQuery h p.x p.y) (st.set k p) hjset
        (fun hc => absurd hc hjk) (fun it hm htr => hcon it hm htr)] at hqj
      obtain rfl := (Option.some.injEq _ _).mp hqj
      rw [hpjd] at hqjd
      simp at hqjd

set_option maxRecDepth 100000 in
/-- C4 counterexample: `missA`'s movement segment geometrically crosses
`missB`'s trail segment, both are live and outside, yet after the full
collision phase `missB` is still alive — the long trail segment's hash
markers all fall outside the 3×3 query window around `missA`. -/
theorem C4_counterexample :
    segmentsIntersect (⟨2495, 2400⟩ : Point ℚ) ⟨2505, 2400⟩ ⟨2500, 1800⟩ ⟨2500, 2600⟩
      = true ∧
    missA.isOutside = true ∧ missB.isOutside = true ∧ missB.isDead = false ∧
    missB.trail = [⟨2500, 1800⟩, ⟨2500, 2600⟩] ∧ missA.prevX = some 2495 ∧
    missA.prevY = some 2400 ∧ missA.x = 2505 ∧ missA.y = 2400 ∧
    ((checkCaptureAndCollisions [missA, missB]).getD 1 missA).isDead = false := by
  refine ⟨?_, rfl, rfl, rfl, rfl, rfl, rfl, rfl, rfl, ?_⟩
  · with_unfolding_all decide
  · with_unfolding_all decide

set_option maxRecDepth 100000 in
/-- C4 witness: with the crossed trail marker inside the query window the
owner `cutB` is killed while the mover `cutA` survives. -/
theorem C4_witness :
    (∃ qv, (processPlayer (buildHash [cutA, cutB]) [cutA, cutB] 0)[1]? = some qv ∧
      qv.isDead = true) ∧
    (processPlayer (buildHash [cutA, cutB]) [cutA, cutB] 0)[0]? = some cutA :=
  ⟨(C4_foreign_trail_kill (h := buildHash [cutA, cutB]) (k := 0) (p := cutA)
      (show ([cutA, cutB] : List (Player ℚ))[0]? = some cutA from rfl) rfl rfl
      (by with_unfolding_all decide) (by with_unfolding_all decide)
      (by with_unfolding_all decide) (by with_unfolding_all decide)
      (by with_unfolding_all decide)).1
    ⟨"trail", "B", ⟨2450, 2450⟩, ⟨2460, 2450⟩, 0⟩
    (List.getElem?_eq_some_iff.mp (show (hashQuery (buildHash [cutA, cutB]) cutA.x cutA.y)[0]?
        = some ⟨"trail", "B", ⟨2450, 2450⟩, ⟨2460, 2450⟩, 0⟩ from by with_unfolding_all rfl)
      |>.2 ▸ List.getElem_mem _)
    rfl (by with_unfolding_all decide)
    (by with_unfolding_all decide) 1 cutB (by with_unfolding_all rfl) rfl rfl,
  (C4_foreign_trail_kill (h := buildHash [cutA, cutB]) (k := 0) (p := cutA)
      (show ([cutA, cutB] : List (Player ℚ))[0]? = some cutA from rfl) rfl rfl
      (by with_unfolding_all decide) (by with_unfolding_all decide)
      (by with_unfolding_all decide) (by with_unfolding_all decide)
      (by with_unfolding_all decide)).2.1⟩

/-- C10: the collision phase only kills players that are outside at the
time of the check: (i) a slot other than the moving player's with
`isOutside = false` passes through one per-player iteration completely
unchanged, and (ii) a live player inside their own territory with no
trail survives the entire collision phase of the tick. -/
theorem C10_inside_safe :
    (∀ (h : SpatialHash K) (st : List (Player K)) (k j : ℕ) (pj : Player K),
      j ≠ k → st[j]? = some pj → pj.isOutside = false →
      (processPlayer h st k)[j]? = some pj) ∧
    (∀ (players : List (Player K)) (j : ℕ) (p : Player K),
      (players.map Player.id).Nodup → players[j]? = some p →
      p.isDead = false → p.isOutside = false → p.trail = [] →
      ∃ q, (checkCaptureAndCollisions players)[j]? = some q ∧ q.isDead = false) := by
  constructor
  · intro h st k j pj hjk hj hout
    cases hkk : st[k]? with
    | none => simpa [processPlayer, hkk] using hj
    | some player =>
      by_cases hpd : player.isDead
      · simpa [processPlayer, hkk, hpd] using hj
      · rw [processPlayer_eq_body hkk (by simpa using hpd), processBody]
        exact afterCapture_slot_not_outside h st k _ _ _ _ hjk hj hout
  · intro players j p hnodup hj hd hout htr
    have hno : ∀ it ∈ hashItems (buildHash players), it.type = "trail" →
        it.playerId ≠ p.id := by
      intro it hm htrail heq
      obtain ⟨p', hp', hdead', hid', hlen'⟩ := mem_buildHash_trail hm htrail
      obtain ⟨i, hi, hip⟩ := List.mem_iff_getElem.mp hp'
      have hi? : players[i]? = some p' := List.getElem?_eq_some_iff.mpr ⟨hi, hip⟩
      have hfi := findIdx?_of_nodup_ids hnodup hi?
      have hfj := findIdx?_of_nodup_ids hnodup hj
      have hpp : p'.id = p.id := hid'.symm.trans heq
      rw [hpp, hfj] at hfi
      have hij : j = i := (Option.some.injEq _ _).mp hfi
      subst hij
      rw [hj] at hi?
      obtain rfl := (Option.some.injEq _ _).mp hi?
      rw [htr] at hlen'
      simp at hlen'
    rw [checkCaptureAndCollisions]
    obtain ⟨q, hq, hqd, -⟩ :=
      foldl_alive hno (List.range players.length) players p hj hd rfl
    exact ⟨q, hq, hqd⟩

set_option maxRecDepth 100000 in
/-- C10 witness: an inside player with no trail is untouched by another
player's collision pass and survives the whole collision phase. -/
theorem C10_witness :
    (processPlayer (buildHash [insideP, roamP]) [insideP, roamP] 1)[0]? = some insideP ∧
    ∃ q, (checkCaptureAndCollisions [insideP, roamP])[0]? = some q ∧
      q.isDead = false :=
  ⟨(C10_inside_safe (K := ℚ)).1 (buildHash [insideP, roamP]) [insideP, roamP] 1 0 insideP
      (by decide) (by with_unfolding_all rfl) rfl,
    (C10_inside_safe (K := ℚ)).2 [insideP, roamP] 0 insideP
      (by with_unfolding_all decide) (by with_unfolding_all rfl) rfl rfl rfl⟩

/-- C6: in every reachable sequence of ticks from a state whose players
satisfy the winner invariant (`hasWon` implies inside, alive and at or
above the win threshold — established by the victory latch itself), a
player observed with `hasWon = true` at some tick is still present, still
victorious and still alive after every later tick: neither the
self-collision branch nor the foreign-trail branch ever kills a victorious
player. -/
theorem C6_victory_immortal (ops : NumOps K)
    (sched : ℕ → List (String × K) × List (String × K) × K)
    (players : List (Player K))
    (hall : ∀ (j : ℕ) (p : Player K), players[j]? = some p → WInv p)
    (n j : ℕ) (p : Player K)
    (hn : (tickSeq ops sched players n)[j]? = some p) (hw : p.hasWon = true) :
    ∀ m : ℕ, ∃ q, (tickSeq ops sched players (n + m))[j]? = some q ∧
      q.hasWon = true ∧ q.isDead = false
  | 0 => ⟨p, hn, hw, (tickSeq_WInv ops sched players hall n j p hn hw).2.1⟩
  | m + 1 => by
    obtain ⟨q, hq, hqw, -⟩ := C6_victory_immortal ops sched players hall n j p hn hw m
    have hallm : ∀ (i : ℕ) (r : Player K),
        (tickSeq ops sched players (n + m))[i]? = some r → WInv r :=
      fun i r hr => tickSeq_WInv ops sched players hall (n + m) i r hr
    rw [show n + (m + 1) = (n + m) + 1 from rfl]
    simp only [tickSeq]
    exact tick_winner _ _ _ _ hallm hq hqw

set_option maxRecDepth 100000 in
/-- C6 witness: a latched winner survives a concrete tick. -/
theorem C6_witness :
    ∃ q, (tickSeq qOps constSched [wonPlayer] (0 + 1))[0]? = some q ∧
      q.hasWon = true ∧ q.isDead = false :=
  C6_victory_immortal qOps constSched [wonPlayer]
    (by
      intro j p hp
      cases j with
      | zero =>
        rw [show ([wonPlayer] : List (Player ℚ))[0]? = some wonPlayer from rfl] at hp
        obtain rfl := Option.some.inj hp
        intro hw
        exact ⟨rfl, rfl, by with_unfolding_all decide⟩
      | succ i => simp at hp)
    0 0 wonPlayer rfl rfl 1

/-- C7: the ray-casting test `isPointInPolygon` returns the same boolean
on every cyclic rotation of the polygon and on its reversal: the fold is
the parity of the crossed edge set, rotation permutes the edge set, and
reversal maps each edge to its swap, which crosses identically. -/
theorem C7_point_in_polygon (pt : Point K) (poly : List (Point K)) :
    (∀ k : ℕ, isPointInPolygon pt (poly.rotate k) = isPointInPolygon pt poly) ∧
    isPointInPolygon pt poly.reverse = isPointInPolygon pt poly :=
  ⟨fun k => ipp_rotate pt poly k, ipp_reverse pt poly⟩

/-- C8: the movement update normalizes the heading into `(-π, π]` only
*before* steering — `angle0 = atan2(sin angle, cos angle)` always lies in
`(-π, π]` — and then adds `angleDiff · PLAYER_TURN_SPEED · dt` with
`angleDiff ∈ (-Math.PI, Math.PI]`, so the angle stored at the end of the
tick is only guaranteed to lie in the widened interval
`(-(π + Math.PI·12·dt), π + Math.PI·12·dt]`; it can exceed `π` (see the
counterexample), so the claimed end-of-tick invariant `angle ∈ (-π, π]`
does not hold. -/
theorem C8_angle_bound (p : Player ℝ) (dt : ℝ) (hdt : 0 ≤ dt) :
    (-Real.pi < atan2 (Real.sin p.angle) (Real.cos p.angle) ∧
      atan2 (Real.sin p.angle) (Real.cos p.angle) ≤ Real.pi) ∧
    (-(Real.pi + mathPI * PLAYER_TURN_SPEED * dt) < (updatePlayerMovementR p dt).angle ∧
      (updatePlayerMovementR p dt).angle ≤ Real.pi + mathPI * PLAYER_TURN_SPEED * dt) := by
  have hred : (updatePlayerMovementR p dt).angle
      = atan2 (Real.sin p.angle) (Real.cos p.angle)
        + normalizeAngleDiff (p.targetAngle
            - atan2 (Real.sin p.angle) (Real.cos p.angle)) * PLAYER_TURN_SPEED * dt := rfl
  obtain ⟨ha1, ha2⟩ := atan2_mem_Ioc (Real.sin p.angle) (Real.cos p.angle)
  obtain ⟨hn1, hn2⟩ := normalizeAngleDiff_mem
    (p.targetAngle - atan2 (Real.sin p.angle) (Real.cos p.angle))
  have hts : (PLAYER_TURN_SPEED : ℝ) = 12 := rfl
  have h12 : (0 : ℝ) ≤ PLAYER_TURN_SPEED * dt := by
    rw [hts]
    linarith
  refine ⟨⟨ha1, ha2⟩, ?_, ?_⟩
  · rw [hred]
    have h2 := mul_le_mul_of_nonneg_right (le_of_lt hn1) h12
    nlinarith
  · rw [hred]
    have h2 := mul_le_mul_of_nonneg_right hn2 h12
    nlinarith

/-- C8 counterexample: a player heading `π` steering toward `0` ends the
movement update with heading strictly greater than `π`. -/
theorem C8_counterexample : Real.pi < (updatePlayerMovementR c8Player (1 / 60)).angle := by
  have hred : (updatePlayerMovementR c8Player (1 / 60)).angle
      = atan2 (Real.sin Real.pi) (Real.cos Real.pi)
        + normalizeAngleDiff ((0 : ℝ)
            - atan2 (Real.sin Real.pi) (Real.cos Real.pi))
          * PLAYER_TURN_SPEED * (1 / 60) := rfl
  have hA : atan2 (Real.sin Real.pi) (Real.cos Real.pi) = Real.pi := by
    rw [Real.sin_pi, Real.cos_pi]
    show Complex.arg ⟨-1, 0⟩ = Real.pi
    rw [show (⟨-1, 0⟩ : ℂ) = (-1 : ℂ) from by
      apply Complex.ext <;> simp]
    exact Complex.arg_neg_one
  have hpiu : Real.pi < 3.15 := Real.pi_lt_d2
  have hpil : (3.14159265358979323846 : ℝ) < Real.pi := Real.pi_gt_d20
  have hml : (3.14159 : ℝ) < mathPI := by
    rw [mathPI]
    norm_num
  have hmu : (mathPI : ℝ) < 3.14159265358979323846 := by
    rw [mathPI]
    norm_num
  have hC : ⌈((0 : ℝ) - Real.pi - mathPI) / (2 * mathPI)⌉ = -1 := by
    rw [Int.ceil_eq_iff]
    constructor
    · rw [lt_div_iff₀ (by linarith : (0 : ℝ) < 2 * mathPI)]
      push_cast
      nlinarith
    · rw [div_le_iff₀ (by linarith : (0 : ℝ) < 2 * mathPI)]
      push_cast
      nlinarith
  have hN : normalizeAngleDiff ((0 : ℝ) - Real.pi) = 2 * mathPI - Real.pi := by
    rw [normalizeAngleDiff, hC]
    push_cast
    ring
  rw [hred, hA, hN, show (PLAYER_TURN_SPEED : ℝ) = 12 from rfl]
  nlinarith

/-- C8 witness: the bound at a concrete player and timestep. -/
theorem C8_witness :
    (-Real.pi < atan2 (Real.sin c8Player.angle) (Real.cos c8Player.angle) ∧
      atan2 (Real.sin c8Player.angle) (Real.cos c8Player.angle) ≤ Real.pi) ∧
    (-(Real.pi + mathPI * PLAYER_TURN_SPEED * 0)
        < (updatePlayerMovementR c8Player 0).angle ∧
      (updatePlayerMovementR c8Player 0).angle
        ≤ Real.pi + mathPI * PLAYER_TURN_SPEED * 0) :=
  C8_angle_bound c8Player 0 le_rfl

/-- C9 (amended): `createPlayer(id, 2500, 2500, color)` seeds a territory
of exactly 32 vertices, each at distance 155 (= 300/2 + 5) from
`(2500, 2500)`, and the initial score is `⌊area of that 32-gon⌋ = 74992`
(= ⌊384400·sin(π/16)⌋), not `⌊π·155²⌋ = 75476 ± 1` as the claim's circle
formula would give: the score is the shoelace area of the inscribed
polygon, not of the circle. -/
theorem C9_create_player (id color : String) :
    (createPlayerR id 2500 2500 color).territory.length = 32 ∧
    (∀ v ∈ (createPlayerR id 2500 2500 color).territory,
      (v.x - 2500) ^ 2 + (v.y - 2500) ^ 2 = 155 ^ 2) ∧
    (createPlayerR id 2500 2500 color).score = 74992 := by
  refine ⟨rfl, ?_, createPlayer_score id color⟩
  intro v hv
  have hterr : (createPlayerR id 2500 2500 color).territory
      = (List.range 32).map seedVertex := rfl
  rw [hterr] at hv
  obtain ⟨i, -, rfl⟩ := List.mem_map.mp hv
  simp only [seedVertex, STARTING_TERRITORY_SIZE]
  linear_combination ((155 : ℝ)) ^ 2 * Real.sin_sq_add_cos_sq ((i : ℝ) / 32 * mathPI * 2)

/-- C9 counterexample: the initial score is 74992, which is not within 1
of 75477 — the score is the area of the inscribed 32-gon
(384400·sin(π/16) ≈ 74992.72), not of the radius-155 circle. -/
theorem C9_counterexample :
    (createPlayerR "p" 2500 2500 "c").score = 74992 ∧
    ¬((75477 - 1 : ℤ) ≤ 74992 ∧ (74992 : ℤ) ≤ 75477 + 1) :=
  ⟨createPlayer_score "p" "c", by decide⟩

/-- C9 witness: the claim at a concrete id and color, exhibiting a
vertex. -/
theorem C9_witness :
    (createPlayerR "p" 2500 2500 "c").territory.length = 32 ∧
    (∃ v ∈ (createPlayerR "p" 2500 2500 "c").territory,
      (v.x - 2500) ^ 2 + (v.y - 2500) ^ 2 = 155 ^ 2) ∧
    (createPlayerR "p" 2500 2500 "c").score = 74992 := by
  obtain ⟨h1, h2, h3⟩ := C9_create_player "p" "c"
  refine ⟨h1, ?_, h3⟩
  have hne : (createPlayerR "p" 2500 2500 "c").territory ≠ [] := by
    intro hc
    rw [hc] at h1
    simp at h1
  obtain ⟨v, hv⟩ := List.exists_mem_of_ne_nil _ hne
  exact ⟨v, hv, h2 v hv⟩

end Paperio
